import Mathlib

/-!
Shallow embedding of the easyclaw order-engine clearing core
(`programs/order_engine/src`): margin, funding, pricing validation and
liquidation logic, with machine-integer overflow behaviour made explicit.

Rust `u64`/`u128` values are modelled as `Nat`, `i64`/`i128` as `Int`;
every `checked_*` operation is a function returning `Except Err _` that
fails with `Err.MathOverflow` exactly when the Rust original returns
`None`, and every `as u64` narrowing cast is an explicit `% 2 ^ 64`.
Rust signed division truncates toward zero, so `Int.tdiv` is used.

Instruction handlers are modelled as functions from the deserialized
account state to `Option Err × State`: the returned state is the account
data as the handler body leaves it (the claims about the liquidation
halt path are about exactly this handler-level state).  Pubkey equality
constraints that are enforced by PDA derivation or account constraints
are outside the data model and are omitted; signer-set membership is
modelled as a boolean input.
-/

namespace Easyclaw

/-- Machine-width bounds for the integer types used by the programs. -/
def U64_MOD : Nat := 2 ^ 64

def U64_MAX : Nat := 2 ^ 64 - 1

def U128_MAX : Nat := 2 ^ 128 - 1

def I64_MIN : Int := -(2 ^ 63)

def I64_MAX : Int := 2 ^ 63 - 1

def I128_MIN : Int := -(2 ^ 127)

def I128_MAX : Int := 2 ^ 127 - 1

/-- Error codes of `order_engine/src/error.rs` (plus one constructor for a
failed SPL token transfer, which surfaces as an external program error). -/
inductive Err where
  | Unauthorized
  | UnauthorizedExecutor
  | InvalidAmount
  | InvalidTtl
  | TtlTooLong
  | MathOverflow
  | InsufficientCollateral
  | MarginRequirementViolation
  | InvalidLimitPrice
  | OrderNotOpen
  | MarketMismatch
  | GlobalPaused
  | MarketNotActive
  | MarginOrderMismatch
  | PositionOwnerMismatch
  | StaleOracle
  | OracleConfidenceTooWide
  | FillPriceDeviationTooLarge
  | OiCapExceeded
  | SkewCapExceeded
  | MaxTradeNotionalExceeded
  | ImpactPriceViolation
  | LimitPriceViolation
  | LeverageExceeded
  | InvalidPrice
  | InvalidOracle
  | NotLiquidatable
  | InvalidCloseQty
  | InsuranceShortfallMarketHalted
  | MarketHaltedLocal
  | InvalidFundingParams
  | TokenInsufficientFunds
  deriving DecidableEq

/-- Rust `u64::checked_add`. -/
def chkAddU64 (a b : Nat) : Except Err Nat :=
  if a + b ≤ U64_MAX then .ok (a + b) else .error .MathOverflow

/-- Rust `u64::checked_sub`. -/
def chkSubU64 (a b : Nat) : Except Err Nat :=
  if b ≤ a then .ok (a - b) else .error .MathOverflow

/-- Rust `u64::checked_mul`. -/
def chkMulU64 (a b : Nat) : Except Err Nat :=
  if a * b ≤ U64_MAX then .ok (a * b) else .error .MathOverflow

/-- Rust `u64::saturating_mul`. -/
def satMulU64 (a b : Nat) : Nat :=
  min (a * b) U64_MAX

/-- Rust `u128::checked_add`. -/
def chkAddU128 (a b : Nat) : Except Err Nat :=
  if a + b ≤ U128_MAX then .ok (a + b) else .error .MathOverflow

/-- Rust `u128::checked_sub`. -/
def chkSubU128 (a b : Nat) : Except Err Nat :=
  if b ≤ a then .ok (a - b) else .error .MathOverflow

/-- Rust `u128::checked_mul`. -/
def chkMulU128 (a b : Nat) : Except Err Nat :=
  if a * b ≤ U128_MAX then .ok (a * b) else .error .MathOverflow

/-- Rust `u128::checked_div` (`None` exactly on division by zero). -/
def chkDivU128 (a b : Nat) : Except Err Nat :=
  if b = 0 then .error .MathOverflow else .ok (a / b)

/-- Rust `i64::checked_sub`. -/
def chkSubI64 (a b : Int) : Except Err Int :=
  if I64_MIN ≤ a - b ∧ a - b ≤ I64_MAX then .ok (a - b) else .error .MathOverflow

/-- Rust `i64::checked_add`. -/
def chkAddI64 (a b : Int) : Except Err Int :=
  if I64_MIN ≤ a + b ∧ a + b ≤ I64_MAX then .ok (a + b) else .error .MathOverflow

/-- Rust `i128::checked_add`. -/
def chkAddI128 (a b : Int) : Except Err Int :=
  if I128_MIN ≤ a + b ∧ a + b ≤ I128_MAX then .ok (a + b) else .error .MathOverflow

/-- Rust `i128::checked_sub`. -/
def chkSubI128 (a b : Int) : Except Err Int :=
  if I128_MIN ≤ a - b ∧ a - b ≤ I128_MAX then .ok (a - b) else .error .MathOverflow

/-- Rust `i128::checked_mul`. -/
def chkMulI128 (a b : Int) : Except Err Int :=
  if I128_MIN ≤ a * b ∧ a * b ≤ I128_MAX then .ok (a * b) else .error .MathOverflow

/-- Rust `i128::checked_div`: division truncates toward zero; `None` on a
zero divisor or on `i128::MIN / -1`. -/
def chkDivI128 (a b : Int) : Except Err Int :=
  if b = 0 then .error .MathOverflow
  else if a = I128_MIN ∧ b = -1 then .error .MathOverflow
  else .ok (a.tdiv b)

/-- Rust `as u64` narrowing of an unsigned value. -/
def toU64 (n : Nat) : Nat := n % U64_MOD

/-- Modelled from the spec: the basis-points denominator used throughout
(`constants.rs` of the order engine is not part of the sources; the spec
fixes 10 000 bps everywhere). -/
def BPS_DENOM : Nat := 10000

/-- Modelled from the spec: the engine's fixed internal price scale
(`PRICE_SCALE` in the missing `constants.rs`); the claims are
insensitive to the concrete value, which is fixed here at `10 ^ 6`. -/
def PRICE_SCALE : Nat := 1000000

/-- Modelled from the spec: the internal funding-index precision scale
(`FUNDING_SCALE` in the missing `constants.rs`); a positive constant,
fixed here at `10 ^ 9`. -/
def FUNDING_SCALE : Int := 1000000000

/-! ## Data model (order_engine/src/state and market_registry/src/state) -/

/-- market_registry `MarketStatus`. -/
inductive MarketStatus where
  | Active
  | Paused
  | Halted
  deriving DecidableEq

/-- market_registry `RiskParams`. -/
structure RiskParams where
  max_leverage : Nat
  imr_bps : Nat
  mmr_bps : Nat
  oi_cap : Nat
  skew_cap : Nat
  max_trade_notional : Nat
  deriving DecidableEq

/-- market_registry `PricingParams`. -/
structure PricingParams where
  base_spread_bps : Nat
  skew_coeff_bps : Nat
  max_fill_deviation_bps : Nat
  max_oracle_staleness_sec : Int
  max_conf_bps : Nat
  deriving DecidableEq

/-- market_registry `FundingParams` (all three fields are `i64`). -/
structure FundingParams where
  interval_sec : Int
  funding_velocity_cap_bps_per_day : Int
  premium_clamp_bps : Int
  deriving DecidableEq

/-- market_registry `FeeParams`. -/
structure FeeParams where
  taker_fee_bps : Nat
  maker_fee_bps : Nat
  deriving DecidableEq

/-- market_registry `Market` record as read by the engine (identity and
oracle-feed pubkeys omitted). -/
structure Market where
  market_id : Nat
  status : MarketStatus
  risk_params : RiskParams
  pricing_params : PricingParams
  funding_params : FundingParams
  fee_params : FeeParams
  deriving DecidableEq

/-- order_engine `MarketFundingState` (PDA identity fields omitted). -/
structure MarketFundingState where
  funding_index : Int
  last_update_ts : Int
  open_interest : Nat
  skew : Int
  halted : Bool
  deriving DecidableEq

/-- order_engine `UserMargin` (owner pubkey omitted). -/
structure UserMargin where
  collateral_balance : Nat
  next_order_nonce : Nat
  total_notional : Nat
  deriving DecidableEq

/-- order_engine `UserMarketPosition` (owner pubkey omitted). -/
structure UserMarketPosition where
  market_id : Nat
  long_qty : Nat
  long_entry_notional : Nat
  short_qty : Nat
  short_entry_notional : Nat
  last_funding_index_long : Int
  last_funding_index_short : Int
  deriving DecidableEq

/-- order side. -/
inductive Side where
  | Buy
  | Sell
  deriving DecidableEq

/-- order type. -/
inductive OrderType where
  | Market
  | Limit
  deriving DecidableEq

/-- order lifecycle status. -/
inductive OrderStatus where
  | Open
  | Executed
  | Cancelled
  | Expired
  deriving DecidableEq

/-- position leg selector. -/
inductive PositionLeg where
  | Long
  | Short
  deriving DecidableEq

/-- order_engine `Order` (pubkey fields omitted). -/
structure Order where
  id : Nat
  market_id : Nat
  side : Side
  order_type : OrderType
  reduce_only : Bool
  margin : Nat
  price : Nat
  created_at : Int
  expires_at : Int
  client_order_id : Nat
  status : OrderStatus
  deriving DecidableEq

/-! ## helpers/math.rs -/

/-- `mul_bps_u64`: `value * bps / BPS_DENOM` computed in `u128` and then
narrowed with `as u64`. -/
def mul_bps_u64 (value bps : Nat) : Except Err Nat := do
  let p ← chkMulU128 value bps
  let q ← chkDivU128 p BPS_DENOM
  pure (toU64 q)

/-- `abs_diff` on `u64`. -/
def abs_diff (a b : Nat) : Nat :=
  if a > b then a - b else b - a

/-! ## helpers/reservation.rs -/

/-- `estimate_order_notional`: the 1:1 margin-to-notional sizing
convention. -/
def estimate_order_notional (margin : Nat) : Except Err Nat :=
  if margin > 0 then .ok margin else .error .InvalidAmount

/-- `estimate_order_reservation`: zero for reduce-only orders, otherwise
initial margin plus taker fee on the requested margin. -/
def estimate_order_reservation (reduce_only : Bool) (margin : Nat) (market : Market) :
    Except Err Nat :=
  if reduce_only then .ok 0
  else do
    let notional ← estimate_order_notional margin
    let imr ← mul_bps_u64 notional market.risk_params.imr_bps
    let fee ← mul_bps_u64 notional market.fee_params.taker_fee_bps
    chkAddU64 imr fee

/-! ## helpers/funding.rs -/

/-- Premium term of `update_funding_index`: `skew * BPS_DENOM / oi_cap`
in `i128`, zero when the open-interest cap is zero. -/
def funding_premium (skew : Int) (oi_cap : Nat) : Except Err Int :=
  if oi_cap = 0 then .ok 0
  else
    match chkMulI128 skew (BPS_DENOM : Int) with
    | .error e => .error e
    | .ok t => chkDivI128 t (oi_cap : Int)

/-- `update_funding_index`: accrues the per-market funding index from the
skew-to-OI-cap premium, premium-clamped and velocity-capped, over the
elapsed time since the last update. -/
def update_funding_index (fs : MarketFundingState) (now : Int) (p : FundingParams)
    (oi_cap : Nat) : Except Err MarketFundingState :=
  if p.interval_sec ≤ 0 then .error .InvalidFundingParams
  else if now ≤ fs.last_update_ts then .ok fs
  else
    match chkSubI64 now fs.last_update_ts with
    | .error e => .error e
    | .ok elapsed =>
      match funding_premium fs.skew oi_cap with
      | .error e => .error e
      | .ok premium_bps =>
        let clamped := min (max premium_bps (-p.premium_clamp_bps)) p.premium_clamp_bps
        match chkMulI128 p.funding_velocity_cap_bps_per_day elapsed with
        | .error e => .error e
        | .ok vnum =>
          match chkDivI128 vnum 86400 with
          | .error e => .error e
          | .ok velocity_bound =>
            match chkMulI128 clamped FUNDING_SCALE with
            | .error e => .error e
            | .ok cs =>
              match chkMulI128 cs elapsed with
              | .error e => .error e
              | .ok cse =>
                match chkDivI128 cse p.interval_sec with
                | .error e => .error e
                | .ok interval_scaled =>
                  match chkMulI128 velocity_bound FUNDING_SCALE with
                  | .error e => .error e
                  | .ok max_scaled =>
                    let delta := min (max interval_scaled (-max_scaled)) max_scaled
                    match chkAddI128 fs.funding_index delta with
                    | .error e => .error e
                    | .ok idx =>
                      .ok { fs with funding_index := idx, last_update_ts := now }

/-- `settle_user_funding`: pays/charges the position's funding obligation
against the collateral balance (debits saturate at zero) and advances
both legs' last-settled indices to the current index. -/
def settle_user_funding (position : UserMarketPosition) (fs : MarketFundingState)
    (margin : UserMargin) : Except Err (UserMarketPosition × UserMargin) :=
  match chkSubI128 fs.funding_index position.last_funding_index_long with
  | .error e => .error e
  | .ok delta_long =>
    match chkSubI128 fs.funding_index position.last_funding_index_short with
    | .error e => .error e
    | .ok delta_short =>
      match chkMulI128 (position.long_qty : Int) delta_long with
      | .error e => .error e
      | .ok lp =>
        match chkDivI128 lp FUNDING_SCALE with
        | .error e => .error e
        | .ok long_payment =>
          match chkMulI128 (position.short_qty : Int) delta_short with
          | .error e => .error e
          | .ok sp =>
            match chkDivI128 sp FUNDING_SCALE with
            | .error e => .error e
            | .ok short_payment =>
              match chkSubI128 short_payment long_payment with
              | .error e => .error e
              | .ok net_delta =>
                let position' :=
                  { position with
                      last_funding_index_long := fs.funding_index
                      last_funding_index_short := fs.funding_index }
                if 0 ≤ net_delta then
                  match chkAddU64 margin.collateral_balance (toU64 net_delta.toNat) with
                  | .error e => .error e
                  | .ok c =>
                    .ok (position', { margin with collateral_balance := c })
                else
                  let debit := toU64 (-net_delta).toNat
                  .ok (position',
                       { margin with collateral_balance := margin.collateral_balance - debit })

/-! ## helpers/position.rs -/

/-- `apply_fill_to_position`: a fill always grows the leg matching the
trade side, never nets against the opposite leg. -/
def apply_fill_to_position (position : UserMarketPosition) (side : Side)
    (qty notional : Nat) : Except Err UserMarketPosition :=
  match side with
  | .Buy =>
    match chkAddU64 position.long_qty qty with
    | .error e => .error e
    | .ok q =>
      match chkAddU128 position.long_entry_notional notional with
      | .error e => .error e
      | .ok n => .ok { position with long_qty := q, long_entry_notional := n }
  | .Sell =>
    match chkAddU64 position.short_qty qty with
    | .error e => .error e
    | .ok q =>
      match chkAddU128 position.short_entry_notional notional with
      | .error e => .error e
      | .ok n => .ok { position with short_qty := q, short_entry_notional := n }

/-- `reduce_position`: proportionally removes entry notional for the
closed quantity (the `u128` quotient is narrowed with `as u64`) and
returns the removed notional together with the reduced position. -/
def reduce_position (position : UserMarketPosition) (leg : PositionLeg)
    (close_qty : Nat) : Except Err (Nat × UserMarketPosition) :=
  match leg with
  | .Long =>
    if position.long_qty < close_qty then .error .InvalidCloseQty
    else
      match chkMulU128 position.long_entry_notional close_qty with
      | .error e => .error e
      | .ok t =>
        match chkDivU128 t position.long_qty with
        | .error e => .error e
        | .ok q =>
          let reduced_notional := toU64 q
          match chkSubU64 position.long_qty close_qty with
          | .error e => .error e
          | .ok q' =>
            match chkSubU128 position.long_entry_notional reduced_notional with
            | .error e => .error e
            | .ok n' =>
              .ok (reduced_notional,
                   { position with long_qty := q', long_entry_notional := n' })
  | .Short =>
    if position.short_qty < close_qty then .error .InvalidCloseQty
    else
      match chkMulU128 position.short_entry_notional close_qty with
      | .error e => .error e
      | .ok t =>
        match chkDivU128 t position.short_qty with
        | .error e => .error e
        | .ok q =>
          let reduced_notional := toU64 q
          match chkSubU64 position.short_qty close_qty with
          | .error e => .error e
          | .ok q' =>
            match chkSubU128 position.short_entry_notional reduced_notional with
            | .error e => .error e
            | .ok n' =>
              .ok (reduced_notional,
                   { position with short_qty := q', short_entry_notional := n' })

/-! ## helpers/oracle.rs -/

/-- Fallback branch of `read_oracle_price_update` (the caller passed the
system program in place of a signed Pyth price-update account): requires
a non-zero fallback price, substitutes `now` for a non-positive publish
time, and enforces staleness. -/
def read_oracle_price_update_fallback (market : Market) (now : Int)
    (fallback_oracle_price fallback_oracle_conf : Nat)
    (fallback_oracle_publish_time : Int) : Except Err (Nat × Nat × Int) :=
  if fallback_oracle_price = 0 then .error .InvalidOracle
  else
    let publish_time :=
      if fallback_oracle_publish_time ≤ 0 then now else fallback_oracle_publish_time
    match chkSubI64 now publish_time with
    | .error e => .error e
    | .ok age =>
      if age < 0 then .error .InvalidOracle
      else if market.pricing_params.max_oracle_staleness_sec < age then .error .StaleOracle
      else .ok (fallback_oracle_price, fallback_oracle_conf, publish_time)

/-- `validate_oracle`: staleness, confidence-width and fill-deviation
checks against the validated oracle triple. -/
def validate_oracle (market : Market) (now : Int) (fill_price oracle_price oracle_conf : Nat)
    (oracle_publish_time : Int) : Except Err Unit :=
  match chkSubI64 now oracle_publish_time with
  | .error e => .error e
  | .ok age =>
    if age < 0 then .error .InvalidOracle
    else if market.pricing_params.max_oracle_staleness_sec < age then .error .StaleOracle
    else
      match chkMulU128 oracle_conf BPS_DENOM with
      | .error e => .error e
      | .ok cb =>
        match chkDivU128 cb oracle_price with
        | .error e => .error e
        | .ok cq =>
          let conf_bps := toU64 cq
          if market.pricing_params.max_conf_bps < conf_bps then
            .error .OracleConfidenceTooWide
          else
            match chkMulU128 (abs_diff fill_price oracle_price) BPS_DENOM with
            | .error e => .error e
            | .ok db =>
              match chkDivU128 db oracle_price with
              | .error e => .error e
              | .ok dq =>
                let deviation_bps := toU64 dq
                if market.pricing_params.max_fill_deviation_bps < deviation_bps then
                  .error .FillPriceDeviationTooLarge
                else .ok ()

/-- `validate_impact_price`: enforces a minimum impact-adjusted band
around the oracle price for non-reduce-only fills.  Both band bounds are
computed in `u128` and narrowed with `as u64`. -/
def validate_impact_price (side : Side) (fill_price oracle_price : Nat)
    (projected_skew : Int) (projected_oi : Nat) (pricing : PricingParams) :
    Except Err Unit :=
  match (if projected_oi = 0 then Except.ok (0 : Nat)
         else
           match chkMulU128 projected_skew.natAbs BPS_DENOM with
           | .error e => .error e
           | .ok t =>
             match chkDivU128 t projected_oi with
             | .error e => .error e
             | .ok q => .ok (toU64 q)) with
  | .error e => .error e
  | .ok skew_ratio_bps =>
    match chkMulU128 pricing.skew_coeff_bps skew_ratio_bps with
    | .error e => .error e
    | .ok si =>
      match chkDivU128 si BPS_DENOM with
      | .error e => .error e
      | .ok siq =>
        let skew_impact := toU64 siq
        match chkAddU64 pricing.base_spread_bps skew_impact with
        | .error e => .error e
        | .ok impact_bps =>
          if BPS_DENOM ≤ impact_bps then .error .ImpactPriceViolation
          else
            match chkMulU128 oracle_price (BPS_DENOM + impact_bps) with
            | .error e => .error e
            | .ok un =>
              match chkDivU128 un BPS_DENOM with
              | .error e => .error e
              | .ok uq =>
                let upper := toU64 uq
                match chkMulU128 oracle_price (BPS_DENOM - impact_bps) with
                | .error e => .error e
                | .ok ln =>
                  match chkDivU128 ln BPS_DENOM with
                  | .error e => .error e
                  | .ok lq =>
                    let lower := toU64 lq
                    match side with
                    | .Buy =>
                      if fill_price < upper then .error .ImpactPriceViolation else .ok ()
                    | .Sell =>
                      if lower < fill_price then .error .ImpactPriceViolation else .ok ()

/-- `validate_order_price`: limit-price compliance of the fill. -/
def validate_order_price (side : Side) (price fill_price : Nat) : Except Err Unit :=
  if price = 0 then .error .InvalidLimitPrice
  else
    match side with
    | .Buy => if price < fill_price then .error .LimitPriceViolation else .ok ()
    | .Sell => if fill_price < price then .error .LimitPriceViolation else .ok ()

/-! ## Instruction handlers

Each handler is modelled on the deserialized account state it mutates;
the result pairs the error (if any) with the state as the handler body
leaves it.  Signer / account-constraint checks that are enforced by the
account layout are omitted; keeper-set membership and the global pause
flag are boolean inputs. -/

/-- place_order handler: validates the request, debits the reservation
from the collateral balance and creates an Open order under the next
nonce. -/
def place_order (market : Market) (global_pause : Bool) (max_ttl_secs : Int)
    (margin : UserMargin) (market_id : Nat) (side : Side) (order_type : OrderType)
    (reduce_only : Bool) (order_margin price : Nat) (ttl_secs : Int)
    (client_order_id : Nat) (now : Int) : Except Err (UserMargin × Order) :=
  if order_margin = 0 then .error .InvalidAmount
  else if ttl_secs ≤ 0 then .error .InvalidTtl
  else if max_ttl_secs < ttl_secs then .error .TtlTooLong
  else if market.market_id ≠ market_id then .error .MarketMismatch
  else if global_pause then .error .GlobalPaused
  else if market.status ≠ .Active then .error .MarketNotActive
  else if price = 0 then .error .InvalidLimitPrice
  else
    match estimate_order_reservation reduce_only order_margin market with
    | .error e => .error e
    | .ok reserved_collateral =>
      if margin.collateral_balance < reserved_collateral then
        .error .InsufficientCollateral
      else
        match chkAddI64 now ttl_secs with
        | .error e => .error e
        | .ok expires =>
          match chkAddU64 margin.next_order_nonce 1 with
          | .error e => .error e
          | .ok nonce' =>
            .ok ({ margin with
                     collateral_balance := margin.collateral_balance - reserved_collateral
                     next_order_nonce := nonce' },
                 { id := margin.next_order_nonce
                   market_id := market_id
                   side := side
                   order_type := order_type
                   reduce_only := reduce_only
                   margin := order_margin
                   price := price
                   created_at := now
                   expires_at := expires
                   client_order_id := client_order_id
                   status := .Open })

/-- cancel_order handler: requires the order to be Open, re-credits the
recomputed reservation and moves the order to Cancelled. -/
def cancel_order (market : Market) (margin : UserMargin) (order : Order) :
    Option Err × (UserMargin × Order) :=
  if order.status ≠ .Open then (some .OrderNotOpen, (margin, order))
  else
    match estimate_order_reservation order.reduce_only order.margin market with
    | .error e => (some e, (margin, order))
    | .ok reserved_collateral =>
      match chkAddU64 margin.collateral_balance reserved_collateral with
      | .error e => (some e, (margin, order))
      | .ok c =>
        (none, ({ margin with collateral_balance := c }, { order with status := .Cancelled }))

/-- cancel_order_by_executor handler: keeper-gated variant of
cancel_order with the same refund semantics. -/
def cancel_order_by_executor (executor_authorized : Bool) (market : Market)
    (margin : UserMargin) (order : Order) : Option Err × (UserMargin × Order) :=
  if ¬ executor_authorized then (some .UnauthorizedExecutor, (margin, order))
  else if order.status ≠ .Open then (some .OrderNotOpen, (margin, order))
  else
    match estimate_order_reservation order.reduce_only order.margin market with
    | .error e => (some e, (margin, order))
    | .ok reserved_collateral =>
      match chkAddU64 margin.collateral_balance reserved_collateral with
      | .error e => (some e, (margin, order))
      | .ok c =>
        (none, ({ margin with collateral_balance := c }, { order with status := .Cancelled }))

/-- SPL token transfer as issued through `transfer_from_collateral` and
`token::transfer`: a zero amount is a no-op; otherwise the amount moves
between the two token balances, failing like the token program on
insufficient source funds or destination overflow. -/
def transfer_tokens (source dest amount : Nat) : Except Err (Nat × Nat) :=
  if amount = 0 then .ok (source, dest)
  else if source < amount then .error .TokenInsufficientFunds
  else
    match chkAddU64 dest amount with
    | .error e => .error e
    | .ok d => .ok (source - amount, d)

/-- Account state touched by withdraw_collateral: the margin account,
the engine collateral vault and the user's token account. -/
structure WithdrawState where
  margin : UserMargin
  collateral_vault : Nat
  user_token_account : Nat
  deriving DecidableEq

/-- withdraw_collateral handler: blocks a withdrawal that would leave
the account below `max_imr_bps` of its open notional, then transfers
the amount from the collateral vault to the user's token account (a
fallible CPI) before writing the reduced balance back. -/
def withdraw_collateral (max_imr_bps : Nat) (st : WithdrawState) (amount : Nat) :
    Except Err WithdrawState :=
  if amount = 0 then .error .InvalidAmount
  else if st.margin.collateral_balance < amount then .error .InsufficientCollateral
  else
    match mul_bps_u64 st.margin.total_notional max_imr_bps with
    | .error e => .error e
    | .ok required_margin =>
      if st.margin.collateral_balance - amount < required_margin then
        .error .MarginRequirementViolation
      else
        match transfer_tokens st.collateral_vault st.user_token_account amount with
        | .error e => .error e
        | .ok (cv, uta) =>
          .ok (WithdrawState.mk
            { st.margin with
                collateral_balance := st.margin.collateral_balance - amount }
            cv uta)

/-- Account state touched by execute_order. -/
structure ExecState where
  funding_state : MarketFundingState
  margin : UserMargin
  order : Order
  position : UserMarketPosition
  deriving DecidableEq

/-- Projected skew after adding a fill on the given side
(execute_order). -/
def projected_skew_of (skew : Int) (side : Side) (notional : Nat) : Except Err Int :=
  match side with
  | .Buy => chkAddI128 skew notional
  | .Sell => chkSubI128 skew notional

/-- Skew update when a leg is reduced (execute_order reduce-only branch
and liquidate). -/
def skew_after_reduce (skew : Int) (leg : PositionLeg) (reduced : Nat) : Except Err Int :=
  match leg with
  | .Long => chkSubI128 skew reduced
  | .Short => chkAddI128 skew reduced

/-- Leg closed by a reduce-only order on the given side. -/
def close_leg_of (side : Side) : PositionLeg :=
  match side with
  | .Buy => .Short
  | .Sell => .Long

/-- reduce-only tail of the handler. -/
def exec_reduce_only (market : Market) (st3 : ExecState) (fs1 : MarketFundingState)
    (pos1 : UserMarketPosition) (m2 : UserMargin) (notional order_qty : Nat) :
    Option Err × ExecState :=
  let close_leg := close_leg_of st3.order.side
  match reduce_position pos1 close_leg order_qty with
  | .error e => (some e, st3)
  | .ok (reduced_notional, pos2) =>
    let st4 := { st3 with position := pos2 }
    match chkSubU64 m2.total_notional reduced_notional with
    | .error e => (some e, st4)
    | .ok tn =>
      let m3 := { m2 with total_notional := tn }
      let st5 := { st4 with margin := m3 }
      match chkSubU64 fs1.open_interest reduced_notional with
      | .error e => (some e, st5)
      | .ok oi2 =>
        let fs2 := { fs1 with open_interest := oi2 }
        let st6 := { st5 with funding_state := fs2 }
        match skew_after_reduce fs2.skew close_leg reduced_notional with
        | .error e => (some e, st6)
        | .ok sk2 =>
          let fs3 := { fs2 with skew := sk2 }
          let st7 := { st6 with funding_state := fs3 }
          match mul_bps_u64 notional market.fee_params.taker_fee_bps with
          | .error e => (some e, st7)
          | .ok fee =>
            if m3.collateral_balance < fee then (some .InsufficientCollateral, st7)
            else
              match chkSubU64 m3.collateral_balance fee with
              | .error e => (some e, st7)
              | .ok c2 =>
                (none, { st7 with
                           margin := { m3 with collateral_balance := c2 }
                           order := { st7.order with status := .Executed } })
/-- non-reduce-only tail of the handler: OI / skew caps, impact price,
fee, margin / leverage checks, then the fill. -/
def exec_open (market : Market) (st3 : ExecState) (fs1 : MarketFundingState)
    (pos1 : UserMarketPosition) (m2 : UserMargin)
    (fill_price oracle_price notional order_qty : Nat) : Option Err × ExecState :=
  match chkAddU64 fs1.open_interest notional with
  | .error e => (some e, st3)
  | .ok projected_oi =>
    if market.risk_params.oi_cap < projected_oi then (some .OiCapExceeded, st3)
    else
      match projected_skew_of fs1.skew st3.order.side notional with
      | .error e => (some e, st3)
      | .ok projected_skew =>
        if market.risk_params.skew_cap < projected_skew.natAbs then
          (some .SkewCapExceeded, st3)
        else
          match validate_impact_price st3.order.side fill_price oracle_price
              projected_skew projected_oi market.pricing_params with
          | .error e => (some e, st3)
          | .ok _ =>
            match mul_bps_u64 notional market.fee_params.taker_fee_bps with
            | .error e => (some e, st3)
            | .ok fee =>
              if m2.collateral_balance < fee then (some .InsufficientCollateral, st3)
              else
                match chkSubU64 m2.collateral_balance fee with
                | .error e => (some e, st3)
                | .ok c2 =>
                  let m3 := { m2 with collateral_balance := c2 }
                  let st4 := { st3 with margin := m3 }
                  match chkAddU64 m3.total_notional notional with
                  | .error e => (some e, st4)
                  | .ok new_total_notional =>
                    match mul_bps_u64 new_total_notional market.risk_params.imr_bps with
                    | .error e => (some e, st4)
                    | .ok imr_required =>
                      if m3.collateral_balance < imr_required then
                        (some .MarginRequirementViolation, st4)
                      else
                        match chkMulU64 new_total_notional 1 with
                        | .error e => (some e, st4)
                        | .ok leverage_num =>
                          let leverage_den := max m3.collateral_balance 1
                          if satMulU64 leverage_den market.risk_params.max_leverage <
                              leverage_num then
                            (some .LeverageExceeded, st4)
                          else
                            match apply_fill_to_position pos1 st3.order.side order_qty
                                notional with
                            | .error e => (some e, st4)
                            | .ok pos2 =>
                              (none, { st4 with
                                         funding_state := { fs1 with
                                           open_interest := projected_oi
                                           skew := projected_skew }
                                         margin := { m3 with
                                           total_notional := new_total_notional }
                                         order := { st4.order with status := .Executed }
                                         position := pos2 })

/-- execute_order handler, for calls that supply the fallback oracle
input (the system program passed in place of a Pyth price-update
account).  Mirrors `instructions/execute_order.rs` step by step; the
fee-split token transfers and the liquidity-pool CPI mutate no account
modelled here. -/
def execute_order (market : Market) (global_pause executor_authorized : Bool)
    (st : ExecState) (fill_price oracle_price_arg oracle_conf_arg : Nat)
    (oracle_publish_time_arg now : Int) : Option Err × ExecState :=
  if fill_price = 0 then (some .InvalidPrice, st)
  else if ¬ executor_authorized then (some .UnauthorizedExecutor, st)
  else if global_pause then (some .GlobalPaused, st)
  else if market.status ≠ .Active then (some .MarketNotActive, st)
  else if st.funding_state.halted then (some .MarketHaltedLocal, st)
  else if st.order.status ≠ .Open then (some .OrderNotOpen, st)
  else if st.order.market_id ≠ market.market_id then (some .MarketMismatch, st)
  else
    match estimate_order_reservation st.order.reduce_only st.order.margin market with
    | .error e => (some e, st)
    | .ok reserved_collateral =>
      if st.order.expires_at < now then
        match chkAddU64 st.margin.collateral_balance reserved_collateral with
        | .error e => (some e, st)
        | .ok c =>
          (none, { st with
                     margin := { st.margin with collateral_balance := c }
                     order := { st.order with status := .Expired } })
      else
        match chkAddU64 st.margin.collateral_balance reserved_collateral with
        | .error e => (some e, st)
        | .ok c0 =>
          let m1 := { st.margin with collateral_balance := c0 }
          let st1 := { st with margin := m1 }
          match read_oracle_price_update_fallback market now oracle_price_arg
              oracle_conf_arg oracle_publish_time_arg with
          | .error e => (some e, st1)
          | .ok (oracle_price, oracle_conf, oracle_publish_time) =>
            match validate_oracle market now fill_price oracle_price oracle_conf
                oracle_publish_time with
            | .error e => (some e, st1)
            | .ok _ =>
              let notional := st.order.margin
              if notional = 0 then (some .InvalidAmount, st1)
              else if market.risk_params.max_trade_notional < notional then
                (some .MaxTradeNotionalExceeded, st1)
              else
                match chkMulU128 notional PRICE_SCALE with
                | .error e => (some e, st1)
                | .ok rq0 =>
                  match chkDivU128 rq0 fill_price with
                  | .error e => (some e, st1)
                  | .ok raw_qty =>
                    if U64_MAX < raw_qty then (some .MathOverflow, st1)
                    else if raw_qty = 0 then (some .InvalidAmount, st1)
                    else
                      let order_qty := raw_qty
                      match validate_order_price st.order.side st.order.price fill_price with
                      | .error e => (some e, st1)
                      | .ok _ =>
                        match update_funding_index st.funding_state now
                            market.funding_params market.risk_params.oi_cap with
                        | .error e => (some e, st1)
                        | .ok fs1 =>
                          let st2 := { st1 with funding_state := fs1 }
                          match settle_user_funding st.position fs1 m1 with
                          | .error e => (some e, st2)
                          | .ok (pos1, m2) =>
                            let st3 := { st2 with position := pos1, margin := m2 }
                            if st.order.reduce_only then
                              exec_reduce_only market st3 fs1 pos1 m2 notional order_qty
                            else
                              exec_open market st3 fs1 pos1 m2 fill_price oracle_price
                                notional order_qty

/-- Account state touched by liquidate: engine accounts plus the
on-chain token balances of the collateral, insurance and protocol-fee
vaults, and a flag recording whether the liquidity pool was notified
via CPI. -/
structure LiqState where
  funding_state : MarketFundingState
  margin : UserMargin
  position : UserMarketPosition
  collateral_vault : Nat
  insurance_vault : Nat
  protocol_vault : Nat
  pool_notified : Bool
  deriving DecidableEq

/-- liquidate handler.  Mirrors `instructions/liquidate.rs`: funding is
brought up to date and settled, maintenance margin is checked, the
chosen leg is force-reduced, the penalty is split 10%/90% between the
keeper (protocol-fee vault) and the insurance vault, collateral is
floored at zero with the shortfall becoming bad debt, and — because the
in-memory insurance vault balance is not reloaded after the transfer —
the halt check compares bad debt against the entry balance plus the
insurance portion.  On the halt path the handler sets the local halted
flag, skips the pool notification and returns the halt error with all
earlier mutations in place. -/
def liquidate (market : Market) (keeper_authorized : Bool) (liquidation_penalty_bps : Nat)
    (st : LiqState) (market_id : Nat) (leg : PositionLeg) (close_qty : Nat) (now : Int) :
    Option Err × LiqState :=
  if close_qty = 0 then (some .InvalidAmount, st)
  else if market.market_id ≠ market_id then (some .MarketMismatch, st)
  else if st.position.market_id ≠ market_id then (some .MarketMismatch, st)
  else if market.status ≠ .Active then (some .MarketNotActive, st)
  else if st.funding_state.halted then (some .MarketHaltedLocal, st)
  else if ¬ keeper_authorized then (some .UnauthorizedExecutor, st)
  else
    match update_funding_index st.funding_state now market.funding_params
        market.risk_params.oi_cap with
    | .error e => (some e, st)
    | .ok fs1 =>
      let stA := { st with funding_state := fs1 }
      match settle_user_funding st.position fs1 st.margin with
      | .error e => (some e, stA)
      | .ok (pos1, m1) =>
        let stB := { stA with position := pos1, margin := m1 }
        match mul_bps_u64 m1.total_notional market.risk_params.mmr_bps with
        | .error e => (some e, stB)
        | .ok mmr_required =>
          if mmr_required ≤ m1.collateral_balance then (some .NotLiquidatable, stB)
          else
            match reduce_position pos1 leg close_qty with
            | .error e => (some e, stB)
            | .ok (reduced_notional, pos2) =>
              let stC := { stB with position := pos2 }
              if reduced_notional = 0 then (some .InvalidAmount, stC)
              else
                match chkSubU64 m1.total_notional reduced_notional with
                | .error e => (some e, stC)
                | .ok tn =>
                  let m2 := { m1 with total_notional := tn }
                  let stD := { stC with margin := m2 }
                  match chkSubU64 fs1.open_interest reduced_notional with
                  | .error e => (some e, stD)
                  | .ok oi2 =>
                    let fs2 := { fs1 with open_interest := oi2 }
                    let stE := { stD with funding_state := fs2 }
                    match skew_after_reduce fs2.skew leg reduced_notional with
                    | .error e => (some e, stE)
                    | .ok sk2 =>
                      let fs3 := { fs2 with skew := sk2 }
                      let stF := { stE with funding_state := fs3 }
                      match mul_bps_u64 reduced_notional liquidation_penalty_bps with
                      | .error e => (some e, stF)
                      | .ok penalty =>
                        match mul_bps_u64 penalty 1000 with
                        | .error e => (some e, stF)
                        | .ok keeper_portion =>
                          match chkSubU64 penalty keeper_portion with
                          | .error e => (some e, stF)
                          | .ok insurance_portion =>
                            let (m3, bad_debt) :=
                              if penalty ≤ m2.collateral_balance then
                                ({ m2 with collateral_balance :=
                                     m2.collateral_balance - penalty }, 0)
                              else
                                ({ m2 with collateral_balance := 0 },
                                 penalty - m2.collateral_balance)
                            let stG := { stF with margin := m3 }
                            match transfer_tokens stG.collateral_vault stG.insurance_vault
                                insurance_portion with
                            | .error e => (some e, stG)
                            | .ok (cv1, iv1) =>
                              let stH := { stG with collateral_vault := cv1,
                                                    insurance_vault := iv1 }
                              match transfer_tokens stH.collateral_vault
                                  stH.protocol_vault keeper_portion with
                              | .error e => (some e, stH)
                              | .ok (cv2, pv1) =>
                                let stI := { stH with collateral_vault := cv2,
                                                      protocol_vault := pv1 }
                                match chkAddU64 st.insurance_vault insurance_portion with
                                | .error e => (some e, stI)
                                | .ok insurance_after_credit =>
                                  if insurance_after_credit < bad_debt then
                                    (some .InsuranceShortfallMarketHalted,
                                     { stI with funding_state :=
                                         { fs3 with halted := true } })
                                  else
                                    (none, { stI with pool_notified := true })

/-! ## Inversion lemmas for the checked operations -/

instance instDecEqExcept {ε α : Type} [DecidableEq ε] [DecidableEq α] :
    DecidableEq (Except ε α) := fun a b =>
  match a, b with
  | .error e, .error f =>
    if h : e = f then .isTrue (by rw [h]) else .isFalse (fun k => h (Except.error.inj k))
  | .ok x, .ok y =>
    if h : x = y then .isTrue (by rw [h]) else .isFalse (fun k => h (Except.ok.inj k))
  | .error _, .ok _ => .isFalse Except.noConfusion
  | .ok _, .error _ => .isFalse Except.noConfusion

theorem toU64_eq {n : Nat} (h : n ≤ U64_MAX) : toU64 n = n :=
  Nat.mod_eq_of_lt (lt_of_le_of_lt h (by norm_num [U64_MAX, U64_MOD]))

theorem chkAddU64_ok {a b c : Nat} (h : chkAddU64 a b = .ok c) :
    c = a + b ∧ a + b ≤ U64_MAX := by
  unfold chkAddU64 at h; split at h <;> simp_all

theorem chkSubU64_ok {a b c : Nat} (h : chkSubU64 a b = .ok c) :
    c = a - b ∧ b ≤ a := by
  unfold chkSubU64 at h; split at h <;> simp_all

theorem chkMulU64_ok {a b c : Nat} (h : chkMulU64 a b = .ok c) :
    c = a * b ∧ a * b ≤ U64_MAX := by
  unfold chkMulU64 at h; split at h <;> simp_all

theorem chkAddU128_ok {a b c : Nat} (h : chkAddU128 a b = .ok c) :
    c = a + b ∧ a + b ≤ U128_MAX := by
  unfold chkAddU128 at h; split at h <;> simp_all

theorem chkSubU128_ok {a b c : Nat} (h : chkSubU128 a b = .ok c) :
    c = a - b ∧ b ≤ a := by
  unfold chkSubU128 at h; split at h <;> simp_all

theorem chkMulU128_ok {a b c : Nat} (h : chkMulU128 a b = .ok c) :
    c = a * b ∧ a * b ≤ U128_MAX := by
  unfold chkMulU128 at h; split at h <;> simp_all

theorem chkDivU128_ok {a b c : Nat} (h : chkDivU128 a b = .ok c) :
    c = a / b ∧ b ≠ 0 := by
  unfold chkDivU128 at h; split at h <;> simp_all

theorem chkSubI64_ok {a b c : Int} (h : chkSubI64 a b = .ok c) : c = a - b := by
  unfold chkSubI64 at h; split at h <;> simp_all

theorem chkAddI64_ok {a b c : Int} (h : chkAddI64 a b = .ok c) : c = a + b := by
  unfold chkAddI64 at h; split at h <;> simp_all

theorem chkAddI128_ok {a b c : Int} (h : chkAddI128 a b = .ok c) : c = a + b := by
  unfold chkAddI128 at h; split at h <;> simp_all

theorem chkSubI128_ok {a b c : Int} (h : chkSubI128 a b = .ok c) : c = a - b := by
  unfold chkSubI128 at h; split at h <;> simp_all

theorem chkMulI128_ok {a b c : Int} (h : chkMulI128 a b = .ok c) : c = a * b := by
  unfold chkMulI128 at h; split at h <;> simp_all

theorem chkDivI128_ok {a b c : Int} (h : chkDivI128 a b = .ok c) :
    c = a.tdiv b ∧ b ≠ 0 := by
  unfold chkDivI128 at h
  split at h
  · simp_all
  · split at h <;> simp_all

/-! ## Claim theorems -/

/-- C1: for every successful `update_funding_index` call with positive
elapsed time (and a non-negative velocity cap, as the market registry
validates), the absolute funding-index change is at most
`funding_velocity_cap_bps_per_day * elapsed / 86400` (truncated integer
division) scaled by `FUNDING_SCALE`, for every skew, open-interest cap
and premium clamp. -/
theorem funding_index_delta_velocity_capped
    (fs fs' : MarketFundingState) (now : Int) (p : FundingParams) (oi_cap : Nat)
    (hvel : 0 ≤ p.funding_velocity_cap_bps_per_day)
    (helapsed : fs.last_update_ts < now)
    (hok : update_funding_index fs now p oi_cap = .ok fs') :
    |fs'.funding_index - fs.funding_index| ≤
      ((p.funding_velocity_cap_bps_per_day * (now - fs.last_update_ts)).tdiv 86400)
        * FUNDING_SCALE := by
  unfold update_funding_index at hok
  split at hok
  · exact absurd hok (by simp)
  split at hok
  · omega
  cases h1 : chkSubI64 now fs.last_update_ts with
  | error e => simp [h1] at hok
  | ok elapsed =>
  simp only [h1] at hok
  cases h2 : funding_premium fs.skew oi_cap with
  | error e => simp [h2] at hok
  | ok premium_bps =>
  simp only [h2] at hok
  cases h3 : chkMulI128 p.funding_velocity_cap_bps_per_day elapsed with
  | error e => simp [h3] at hok
  | ok vnum =>
  simp only [h3] at hok
  cases h4 : chkDivI128 vnum 86400 with
  | error e => simp [h4] at hok
  | ok velocity_bound =>
  simp only [h4] at hok
  cases h5 : chkMulI128 (min (max premium_bps (-p.premium_clamp_bps)) p.premium_clamp_bps)
      FUNDING_SCALE with
  | error e => simp [h5] at hok
  | ok cs =>
  simp only [h5] at hok
  cases h6 : chkMulI128 cs elapsed with
  | error e => simp [h6] at hok
  | ok cse =>
  simp only [h6] at hok
  cases h7 : chkDivI128 cse p.interval_sec with
  | error e => simp [h7] at hok
  | ok interval_scaled =>
  simp only [h7] at hok
  cases h8 : chkMulI128 velocity_bound FUNDING_SCALE with
  | error e => simp [h8] at hok
  | ok max_scaled =>
  simp only [h8] at hok
  cases h9 : chkAddI128 fs.funding_index
      (min (max interval_scaled (-max_scaled)) max_scaled) with
  | error e => simp [h9] at hok
  | ok idx =>
  simp only [h9, Except.ok.injEq] at hok
  subst hok
  have he := chkSubI64_ok h1
  have hv := chkMulI128_ok h3
  have hvb := (chkDivI128_ok h4).1
  have hms := chkMulI128_ok h8
  have hidx := chkAddI128_ok h9
  subst he hv hvb hms hidx
  have hvbnn : 0 ≤ (p.funding_velocity_cap_bps_per_day * (now - fs.last_update_ts)).tdiv 86400 :=
    Int.tdiv_nonneg (mul_nonneg hvel (by omega)) (by norm_num)
  have hmsnn : 0 ≤ (p.funding_velocity_cap_bps_per_day * (now - fs.last_update_ts)).tdiv 86400
      * FUNDING_SCALE := mul_nonneg hvbnn (by norm_num [FUNDING_SCALE])
  simp only [add_sub_cancel_left]
  rw [abs_le]
  exact ⟨le_min (le_max_right _ _) (neg_le_self hmsnn), min_le_right _ _⟩

/-- Witness for C1 at a concrete funding state and parameter set. -/
theorem funding_bound_witness :
    (0:Int) ≤ 80 ∧ ((0:Int) < 100) ∧
    |(MarketFundingState.mk 0 100 5 3 false).funding_index -
      (MarketFundingState.mk 0 0 5 3 false).funding_index| ≤
      (((80:Int) * (100 - 0)).tdiv 86400) * FUNDING_SCALE :=
  ⟨by decide, by decide,
   funding_index_delta_velocity_capped (MarketFundingState.mk 0 0 5 3 false)
     (MarketFundingState.mk 0 100 5 3 false) 100 (FundingParams.mk 3600 80 50) 10
     (by decide) (by decide) (by decide)⟩


/-- Quantity of the selected leg. -/
def leg_qty (pos : UserMarketPosition) : PositionLeg → Nat
  | .Long => pos.long_qty
  | .Short => pos.short_qty

/-- Entry notional of the selected leg. -/
def leg_entry_notional (pos : UserMarketPosition) : PositionLeg → Nat
  | .Long => pos.long_entry_notional
  | .Short => pos.short_entry_notional

/-- Rounding bound for the proportional notional removal. -/
theorem entry_price_rounding (N q c : Nat) (hq : 0 < q) (hc : c ≤ q) :
    N * (q - c) ≤ (N - N * c / q) * q ∧ (N - N * c / q) * q < N * (q - c) + q := by
  have hdiv : N * c / q ≤ N := by
    calc N * c / q ≤ N * q / q := Nat.div_le_div_right (Nat.mul_le_mul_left N hc)
    _ = N := Nat.mul_div_cancel N hq
  have hdm := Nat.div_add_mod (N * c) q
  have hmod : N * c % q < q := Nat.mod_lt _ hq
  have hdq : N * c / q * q ≤ N * c := by
    rw [Nat.mul_comm]; exact Nat.le.intro hdm
  have h3 : N * c ≤ N * q := Nat.mul_le_mul_left N hc
  have h6 : N * c < N * c / q * q + q := by
    rw [Nat.mul_comm (N * c / q) q]
    calc N * c = q * (N * c / q) + N * c % q := hdm.symm
    _ < q * (N * c / q) + q := Nat.add_lt_add_left hmod _
  constructor
  · rw [Nat.mul_sub, Nat.sub_mul]
    exact Nat.sub_le_sub_left hdq _
  · rw [Nat.mul_sub, Nat.sub_mul]
    have h5 : N * c / q * q ≤ N * q := le_trans hdq h3
    zify [h3, h5]
    have h6' := h6
    zify at h6'
    linarith

/-- C5 counterexample: closing zero quantity of an empty leg is within
the claimed InvalidCloseQty bound yet the code fails with MathOverflow
(division by the zero leg quantity). -/
theorem reduce_position_zero_leg_cex :
    ¬ (UserMarketPosition.mk 1 0 0 0 0 0 0).long_qty < 0 ∧
    reduce_position (UserMarketPosition.mk 1 0 0 0 0 0 0) .Long 0 =
      .error .MathOverflow := by
  exact ⟨by decide, rfl⟩

/-- C5 (amended): when the selected leg has positive quantity (and the
u128 product fits), close quantities above the leg quantity fail with
InvalidCloseQty; otherwise the removed notional is the truncated
proportional share (narrowed to 64 bits), both leg fields decrease
accordingly, and — when the quotient fits in 64 bits — the average
entry price is preserved within integer-division rounding. -/
theorem reduce_position_proportional (pos : UserMarketPosition) (leg : PositionLeg)
    (close_qty : Nat) (hq : 0 < leg_qty pos leg)
    (hmul : leg_entry_notional pos leg * close_qty ≤ U128_MAX) :
    (leg_qty pos leg < close_qty →
      reduce_position pos leg close_qty = .error .InvalidCloseQty) ∧
    (close_qty ≤ leg_qty pos leg →
      ∃ pos',
        reduce_position pos leg close_qty =
          .ok (toU64 (leg_entry_notional pos leg * close_qty / leg_qty pos leg), pos') ∧
        leg_qty pos' leg = leg_qty pos leg - close_qty ∧
        leg_entry_notional pos' leg =
          leg_entry_notional pos leg -
            toU64 (leg_entry_notional pos leg * close_qty / leg_qty pos leg) ∧
        (leg_entry_notional pos leg * close_qty / leg_qty pos leg ≤ U64_MAX →
          leg_entry_notional pos leg * (leg_qty pos leg - close_qty) ≤
              leg_entry_notional pos' leg * leg_qty pos leg ∧
            leg_entry_notional pos' leg * leg_qty pos leg <
              leg_entry_notional pos leg * (leg_qty pos leg - close_qty) +
                leg_qty pos leg)) := by
  cases leg with
  | Long =>
    simp only [leg_qty, leg_entry_notional] at *
    constructor
    · intro hlt
      unfold reduce_position
      rw [if_pos hlt]
    · intro hc
      have hqlt : ¬ pos.long_qty < close_qty := by omega
      have h1 : chkMulU128 pos.long_entry_notional close_qty =
          .ok (pos.long_entry_notional * close_qty) := by
        unfold chkMulU128; rw [if_pos hmul]
      have h2 : chkDivU128 (pos.long_entry_notional * close_qty) pos.long_qty =
          .ok (pos.long_entry_notional * close_qty / pos.long_qty) := by
        unfold chkDivU128; rw [if_neg (by omega)]
      have h3 : chkSubU64 pos.long_qty close_qty = .ok (pos.long_qty - close_qty) := by
        unfold chkSubU64; rw [if_pos hc]
      have hrle : toU64 (pos.long_entry_notional * close_qty / pos.long_qty) ≤
          pos.long_entry_notional := by
        refine le_trans (Nat.mod_le _ _) ?_
        calc pos.long_entry_notional * close_qty / pos.long_qty ≤
            pos.long_entry_notional * pos.long_qty / pos.long_qty :=
              Nat.div_le_div_right (Nat.mul_le_mul_left _ hc)
        _ = pos.long_entry_notional := Nat.mul_div_cancel _ hq
      have h4 : chkSubU128 pos.long_entry_notional
          (toU64 (pos.long_entry_notional * close_qty / pos.long_qty)) =
          .ok (pos.long_entry_notional -
            toU64 (pos.long_entry_notional * close_qty / pos.long_qty)) := by
        unfold chkSubU128; rw [if_pos hrle]
      refine ⟨UserMarketPosition.mk pos.market_id (pos.long_qty - close_qty)
                (pos.long_entry_notional -
                  toU64 (pos.long_entry_notional * close_qty / pos.long_qty))
                pos.short_qty pos.short_entry_notional pos.last_funding_index_long
                pos.last_funding_index_short,
              ?_, rfl, rfl, ?_⟩
      · unfold reduce_position
        simp only [if_neg hqlt, h1, h2, h3, h4]
      · intro hfit
        simp only [toU64_eq hfit]
        exact entry_price_rounding pos.long_entry_notional pos.long_qty close_qty hq hc
  | Short =>
    simp only [leg_qty, leg_entry_notional] at *
    constructor
    · intro hlt
      unfold reduce_position
      rw [if_pos hlt]
    · intro hc
      have hqlt : ¬ pos.short_qty < close_qty := by omega
      have h1 : chkMulU128 pos.short_entry_notional close_qty =
          .ok (pos.short_entry_notional * close_qty) := by
        unfold chkMulU128; rw [if_pos hmul]
      have h2 : chkDivU128 (pos.short_entry_notional * close_qty) pos.short_qty =
          .ok (pos.short_entry_notional * close_qty / pos.short_qty) := by
        unfold chkDivU128; rw [if_neg (by omega)]
      have h3 : chkSubU64 pos.short_qty close_qty = .ok (pos.short_qty - close_qty) := by
        unfold chkSubU64; rw [if_pos hc]
      have hrle : toU64 (pos.short_entry_notional * close_qty / pos.short_qty) ≤
          pos.short_entry_notional := by
        refine le_trans (Nat.mod_le _ _) ?_
        calc pos.short_entry_notional * close_qty / pos.short_qty ≤
            pos.short_entry_notional * pos.short_qty / pos.short_qty :=
              Nat.div_le_div_right (Nat.mul_le_mul_left _ hc)
        _ = pos.short_entry_notional := Nat.mul_div_cancel _ hq
      have h4 : chkSubU128 pos.short_entry_notional
          (toU64 (pos.short_entry_notional * close_qty / pos.short_qty)) =
          .ok (pos.short_entry_notional -
            toU64 (pos.short_entry_notional * close_qty / pos.short_qty)) := by
        unfold chkSubU128; rw [if_pos hrle]
      refine ⟨UserMarketPosition.mk pos.market_id pos.long_qty pos.long_entry_notional
                (pos.short_qty - close_qty)
                (pos.short_entry_notional -
                  toU64 (pos.short_entry_notional * close_qty / pos.short_qty))
                pos.last_funding_index_long pos.last_funding_index_short,
              ?_, rfl, rfl, ?_⟩
      · unfold reduce_position
        simp only [if_neg hqlt, h1, h2, h3, h4]
      · intro hfit
        simp only [toU64_eq hfit]
        exact entry_price_rounding pos.short_entry_notional pos.short_qty close_qty hq hc

/-- C7: at oracle prices near `u64::MAX` the impact upper bound wraps
when cast from `u128` to `u64`, so a buy passes `validate_impact_price`
at a fill price strictly below the claimed impact-adjusted bound
`oracle_price * (10000 + impact_bps) / 10000` (here with impact_bps = 1:
base spread 1 bps, skew coefficient 0). -/
theorem impact_price_u64_wrap_demo :
    validate_impact_price .Buy (2 ^ 64 - 1) (2 ^ 64 - 1) 0 9999
        (PricingParams.mk 1 0 5000 60 100) = .ok () ∧
    (2 ^ 64 - 1 : Nat) < (2 ^ 64 - 1) * (BPS_DENOM + 1) / BPS_DENOM := by
  exact ⟨rfl, by decide⟩


theorem mul_bps_u64_eval (v bps : Nat) (hv : v ≤ U64_MAX) (hb : bps ≤ BPS_DENOM) :
    mul_bps_u64 v bps = .ok (v * bps / BPS_DENOM) := by
  have hm : v * bps ≤ U128_MAX := by
    calc v * bps ≤ U64_MAX * BPS_DENOM := Nat.mul_le_mul hv hb
    _ ≤ U128_MAX := by norm_num [U64_MAX, U128_MAX, BPS_DENOM]
  have hqv : v * bps / BPS_DENOM ≤ v := by
    calc v * bps / BPS_DENOM ≤ v * BPS_DENOM / BPS_DENOM :=
      Nat.div_le_div_right (Nat.mul_le_mul_left v hb)
    _ = v := Nat.mul_div_cancel v (by norm_num [BPS_DENOM])
  have h1 : chkMulU128 v bps = .ok (v * bps) := by unfold chkMulU128; rw [if_pos hm]
  have h2 : chkDivU128 (v * bps) BPS_DENOM = .ok (v * bps / BPS_DENOM) := by
    unfold chkDivU128; rw [if_neg (by norm_num [BPS_DENOM])]
  simp only [mul_bps_u64, bind, Except.bind, h1, h2, pure, Except.pure,
    toU64_eq (le_trans hqv hv)]

/-- transfer_tokens success shape. -/
theorem transfer_tokens_ok (s d a : Nat) (h1 : a ≤ s) (h2 : d + a ≤ U64_MAX) :
    transfer_tokens s d a = .ok (s - a, d + a) := by
  unfold transfer_tokens
  split
  · subst a; simp
  split
  · omega
  have : chkAddU64 d a = .ok (d + a) := by unfold chkAddU64; rw [if_pos h2]
  rw [this]

/-- Inversion of a successful transfer of a non-zero amount. -/
theorem transfer_tokens_ok_inv {s d a s1 d1 : Nat} (ha : a ≠ 0)
    (h : transfer_tokens s d a = .ok (s1, d1)) :
    a ≤ s ∧ d + a ≤ U64_MAX ∧ s1 = s - a ∧ d1 = d + a := by
  unfold transfer_tokens at h
  rw [if_neg ha] at h
  split at h
  · exact absurd h (by simp)
  cases hadd : chkAddU64 d a with
  | error e => simp [hadd] at h
  | ok dd =>
    simp only [hadd, Except.ok.injEq, Prod.mk.injEq] at h
    obtain ⟨hs, hd⟩ := h
    obtain ⟨heq, hle⟩ := chkAddU64_ok hadd
    omega

/-- C10 (amended): withdraw_collateral succeeds exactly when the amount
is positive, covered by the balance, the remaining balance still meets
`total_notional * max_imr_bps / 10000`, and the SPL transfer of the
amount from the collateral vault to the user's token account goes
through (the vault covers the amount and the destination balance does
not overflow); on success the collateral balance drops by exactly the
amount, the open notional is unchanged and the amount moves from the
vault into the user's token account. -/
theorem withdraw_collateral_spec (st : WithdrawState) (max_imr_bps amount : Nat)
    (hb : max_imr_bps ≤ BPS_DENOM) (ht : st.margin.total_notional ≤ U64_MAX) :
    ((∃ st1, withdraw_collateral max_imr_bps st amount = .ok st1) ↔
      (0 < amount ∧ amount ≤ st.margin.collateral_balance ∧
        st.margin.total_notional * max_imr_bps / BPS_DENOM ≤
          st.margin.collateral_balance - amount ∧
        amount ≤ st.collateral_vault ∧
        st.user_token_account + amount ≤ U64_MAX)) ∧
    (∀ st1, withdraw_collateral max_imr_bps st amount = .ok st1 →
      st1.margin.collateral_balance = st.margin.collateral_balance - amount ∧
      st1.margin.total_notional = st.margin.total_notional ∧
      st1.collateral_vault = st.collateral_vault - amount ∧
      st1.user_token_account = st.user_token_account + amount) := by
  have hm := mul_bps_u64_eval st.margin.total_notional max_imr_bps ht hb
  constructor
  · constructor
    · rintro ⟨st1, hok⟩
      unfold withdraw_collateral at hok
      by_cases h0 : amount = 0
      · rw [if_pos h0] at hok; exact absurd hok (by simp)
      rw [if_neg h0] at hok
      split at hok
      · exact absurd hok (by simp)
      simp only [hm] at hok
      split at hok
      · exact absurd hok (by simp)
      cases htr : transfer_tokens st.collateral_vault st.user_token_account amount with
      | error e => simp [htr] at hok
      | ok p =>
        obtain ⟨cv, uta⟩ := p
        have hinv := transfer_tokens_ok_inv h0 htr
        omega
    · rintro ⟨h1, h2, h3, h4, h5⟩
      have htr := transfer_tokens_ok st.collateral_vault st.user_token_account amount h4 h5
      refine ⟨WithdrawState.mk
        { st.margin with collateral_balance := st.margin.collateral_balance - amount }
        (st.collateral_vault - amount) (st.user_token_account + amount), ?_⟩
      unfold withdraw_collateral
      rw [if_neg (by omega), if_neg (by omega)]
      simp only [hm]
      rw [if_neg (by omega)]
      simp only [htr]
  · intro st1 hok
    unfold withdraw_collateral at hok
    by_cases h0 : amount = 0
    · rw [if_pos h0] at hok; exact absurd hok (by simp)
    rw [if_neg h0] at hok
    split at hok
    · exact absurd hok (by simp)
    simp only [hm] at hok
    split at hok
    · exact absurd hok (by simp)
    cases htr : transfer_tokens st.collateral_vault st.user_token_account amount with
    | error e => simp [htr] at hok
    | ok p =>
      obtain ⟨cv, uta⟩ := p
      have hinv := transfer_tokens_ok_inv h0 htr
      simp only [htr, Except.ok.injEq] at hok
      subst hok
      exact ⟨rfl, rfl, hinv.2.2.1, hinv.2.2.2⟩

/-- C10 counterexample: the three conditions of the original claim hold
(amount 300 > 0, within the balance 1000, required margin 100 ≤ 700)
yet the call fails, because the collateral vault holds only 100 and the
SPL transfer to the user's token account fails. -/
theorem withdraw_vault_shortfall_cex :
    0 < (300:Nat) ∧ (300:Nat) ≤ 1000 ∧
    (2000:Nat) * 500 / BPS_DENOM ≤ 1000 - 300 ∧
    withdraw_collateral 500 (WithdrawState.mk (UserMargin.mk 1000 0 2000) 100 0) 300 =
      .error .TokenInsufficientFunds :=
  ⟨by decide, by decide, by decide, rfl⟩

/-- Witness for C10 (amended) at a concrete funded state. -/
theorem withdraw_collateral_spec_witness :
    (500:Nat) ≤ BPS_DENOM ∧ (2000:Nat) ≤ U64_MAX ∧
    (((∃ st1, withdraw_collateral 500
          (WithdrawState.mk (UserMargin.mk 1000 0 2000) 5000 50) 300 = .ok st1) ↔
       (0 < (300:Nat) ∧ (300:Nat) ≤ 1000 ∧
         (2000:Nat) * 500 / BPS_DENOM ≤ 1000 - 300 ∧
         (300:Nat) ≤ 5000 ∧ (50:Nat) + 300 ≤ U64_MAX)) ∧
     (∀ st1, withdraw_collateral 500
          (WithdrawState.mk (UserMargin.mk 1000 0 2000) 5000 50) 300 = .ok st1 →
       st1.margin.collateral_balance = 1000 - 300 ∧
       st1.margin.total_notional = 2000 ∧
       st1.collateral_vault = 5000 - 300 ∧
       st1.user_token_account = 50 + 300)) :=
  ⟨by decide, by decide,
   withdraw_collateral_spec (WithdrawState.mk (UserMargin.mk 1000 0 2000) 5000 50) 500 300
     (by decide) (by decide)⟩

/-- C4: a successful placement debits exactly the recomputed reservation
(zero for reduce-only) and cancelling the still-open order credits the
same reservation back, restoring the collateral balance exactly. -/
theorem place_cancel_roundtrip (market : Market) (gp : Bool) (max_ttl : Int)
    (m : UserMargin) (market_id : Nat) (side : Side) (otype : OrderType) (ro : Bool)
    (om price : Nat) (ttl now : Int) (coid : Nat) (m1 : UserMargin) (ord : Order)
    (hcol : m.collateral_balance ≤ U64_MAX)
    (hplace : place_order market gp max_ttl m market_id side otype ro om price ttl coid now
      = .ok (m1, ord)) :
    ∃ r, estimate_order_reservation ro om market = .ok r ∧
      (ro = true → r = 0) ∧
      r ≤ m.collateral_balance ∧
      m1.collateral_balance = m.collateral_balance - r ∧
      cancel_order market m1 ord =
        (none, ({ m1 with collateral_balance := m.collateral_balance },
                { ord with status := .Cancelled })) := by
  unfold place_order at hplace
  split at hplace
  · exact absurd hplace (by simp)
  split at hplace
  · exact absurd hplace (by simp)
  split at hplace
  · exact absurd hplace (by simp)
  split at hplace
  · exact absurd hplace (by simp)
  split at hplace
  · exact absurd hplace (by simp)
  split at hplace
  · exact absurd hplace (by simp)
  split at hplace
  · exact absurd hplace (by simp)
  cases hres : estimate_order_reservation ro om market with
  | error e => simp [hres] at hplace
  | ok r =>
  simp only [hres] at hplace
  split at hplace
  · exact absurd hplace (by simp)
  cases hexp : chkAddI64 now ttl with
  | error e => simp [hexp] at hplace
  | ok expires =>
  simp only [hexp] at hplace
  cases hnonce : chkAddU64 m.next_order_nonce 1 with
  | error e => simp [hnonce] at hplace
  | ok nonce' =>
  simp only [hnonce, Except.ok.injEq, Prod.mk.injEq] at hplace
  obtain ⟨hm1, hord⟩ := hplace
  subst hm1 hord
  refine ⟨r, rfl, ?_, by omega, rfl, ?_⟩
  · intro hro
    subst hro
    unfold estimate_order_reservation at hres
    simp at hres
    omega
  · unfold cancel_order
    simp only
    rw [if_neg (by simp)]
    simp only [hres]
    have hadd : chkAddU64 (m.collateral_balance - r) r = .ok (m.collateral_balance - r + r) := by
      unfold chkAddU64; rw [if_pos (by omega)]
    rw [hadd]
    have : m.collateral_balance - r + r = m.collateral_balance := by omega
    rw [this]


/-- Market fixture for the reservation round-trip witness. -/
def w4m : Market :=
  Market.mk 1 .Active (RiskParams.mk 10 1000 500 1000000000000 1000000000000 1000000000000)
    (PricingParams.mk 0 0 5000 60 100) (FundingParams.mk 3600 0 0) (FeeParams.mk 10 5)

/-- Order fixture for the reservation round-trip witness. -/
def w4ord : Order :=
  Order.mk 7 1 .Buy .Limit false 100000 1000000 0 60 42 .Open

/-- Position fixture for the proportional-reduction witness. -/
def c5pos : UserMarketPosition := UserMarketPosition.mk 1 10 1000 0 0 0 0

/-- Witness for C4 at a concrete market, margin account and order. -/
theorem place_cancel_roundtrip_witness :
    (1000000:Nat) ≤ U64_MAX ∧
    (∃ r, estimate_order_reservation false 100000 w4m = .ok r ∧
      (false = true → r = 0) ∧
      r ≤ 1000000 ∧
      (UserMargin.mk 989900 8 0).collateral_balance = 1000000 - r ∧
      cancel_order w4m (UserMargin.mk 989900 8 0) w4ord =
        (none, (UserMargin.mk 1000000 8 0,
                Order.mk 7 1 .Buy .Limit false 100000 1000000 0 60 42 .Cancelled))) :=
  ⟨by decide,
   place_cancel_roundtrip w4m false 3600 (UserMargin.mk 1000000 7 0) 1 .Buy .Limit false
     100000 1000000 60 0 42 (UserMargin.mk 989900 8 0) w4ord (by decide) (by rfl)⟩

/-- Witness for C5 (amended) at a concrete position. -/
theorem reduce_position_proportional_witness :
    0 < (10:Nat) ∧ (1000:Nat) * 4 ≤ U128_MAX ∧
    (((10:Nat) < 4 → reduce_position c5pos .Long 4 = .error .InvalidCloseQty) ∧
     ((4:Nat) ≤ 10 → ∃ pos',
        reduce_position c5pos .Long 4 = .ok (toU64 (1000 * 4 / 10), pos') ∧
        leg_qty pos' .Long = 10 - 4 ∧
        leg_entry_notional pos' .Long = 1000 - toU64 (1000 * 4 / 10) ∧
        ((1000 * 4 / 10 : Nat) ≤ U64_MAX →
          1000 * (10 - 4) ≤ leg_entry_notional pos' .Long * 10 ∧
          leg_entry_notional pos' .Long * 10 < 1000 * (10 - 4) + 10))) :=
  ⟨by decide, by decide,
   reduce_position_proportional c5pos .Long 4 (by decide) (by decide)⟩


/-- C8: executing an Open order strictly past its expiry (all earlier
gate checks passing) credits the recomputed reservation back, marks the
order Expired and succeeds, with the position, funding state (index,
open interest, skew) and total notional untouched — whatever oracle and
price data was supplied with the call. -/
theorem execute_order_expiry_refund (market : Market) (st : ExecState)
    (fill_price op oc : Nat) (opt now : Int) (r : Nat)
    (hfill : fill_price ≠ 0)
    (hactive : market.status = .Active)
    (hhalt : st.funding_state.halted = false)
    (hopen : st.order.status = .Open)
    (hmid : st.order.market_id = market.market_id)
    (hres : estimate_order_reservation st.order.reduce_only st.order.margin market = .ok r)
    (hfit : st.margin.collateral_balance + r ≤ U64_MAX)
    (hexp : st.order.expires_at < now) :
    execute_order market false true st fill_price op oc opt now =
      (none, { st with
                 margin := { st.margin with collateral_balance :=
                   st.margin.collateral_balance + r }
                 order := { st.order with status := .Expired } }) := by
  have hadd : chkAddU64 st.margin.collateral_balance r =
      .ok (st.margin.collateral_balance + r) := by
    unfold chkAddU64; rw [if_pos hfit]
  unfold execute_order
  rw [if_neg hfill, if_neg (by simp), if_neg (by simp), if_neg (by simp [hactive]),
    if_neg (by simp [hhalt]), if_neg (by simp [hopen]), if_neg (by simp [hmid])]
  simp only [hres, if_pos hexp, hadd]

/-- C9: once an order is in a terminal status (Executed, Cancelled or
Expired), execute_order, cancel_order and cancel_order_by_executor all
fail with OrderNotOpen and return the state unchanged. -/
theorem terminal_order_immutable (market : Market) (st : ExecState)
    (fill_price op oc : Nat) (opt now : Int)
    (hfill : fill_price ≠ 0)
    (hactive : market.status = .Active)
    (hhalt : st.funding_state.halted = false)
    (hterm : st.order.status = .Executed ∨ st.order.status = .Cancelled ∨
      st.order.status = .Expired) :
    execute_order market false true st fill_price op oc opt now = (some .OrderNotOpen, st) ∧
    cancel_order market st.margin st.order = (some .OrderNotOpen, (st.margin, st.order)) ∧
    cancel_order_by_executor true market st.margin st.order =
      (some .OrderNotOpen, (st.margin, st.order)) := by
  have hne : st.order.status ≠ .Open := by
    rcases hterm with h | h | h <;> rw [h] <;> simp
  refine ⟨?_, ?_, ?_⟩
  · unfold execute_order
    rw [if_neg hfill, if_neg (by simp), if_neg (by simp), if_neg (by simp [hactive]),
      if_neg (by simp [hhalt]), if_pos hne]
  · unfold cancel_order
    rw [if_pos hne]
  · unfold cancel_order_by_executor
    rw [if_neg (by simp), if_pos hne]

/-- Market fixture for the execute_order witnesses and counterexample. -/
def exMarket : Market :=
  Market.mk 1 .Active (RiskParams.mk 10000 1 0 1000000000000 1000000000000 1000000000000)
    (PricingParams.mk 0 0 5000 60 100) (FundingParams.mk 3600 0 0) (FeeParams.mk 0 0)

/-- Engine-state fixture: one open buy order against a fresh account. -/
def exSt : ExecState :=
  ExecState.mk (MarketFundingState.mk 0 0 0 0 false) (UserMargin.mk 0 1 0)
    (Order.mk 0 1 .Buy .Limit false 9999 1000000 0 100 0 .Open)
    (UserMarketPosition.mk 1 0 0 0 0 0 0)

/-- Witness for C8 at a concrete expired execution. -/
theorem execute_order_expiry_refund_witness :
    (1000000 : Nat) ≠ 0 ∧ exMarket.status = MarketStatus.Active ∧
    exSt.order.expires_at < 200 ∧
    execute_order exMarket false true exSt 1000000 1000000 0 10 200 =
      (none, ExecState.mk (MarketFundingState.mk 0 0 0 0 false) (UserMargin.mk 0 1 0)
        (Order.mk 0 1 .Buy .Limit false 9999 1000000 0 100 0 .Expired)
        (UserMarketPosition.mk 1 0 0 0 0 0 0)) :=
  ⟨by decide, rfl, by decide,
   execute_order_expiry_refund exMarket exSt 1000000 1000000 0 10 200 0 (by decide) rfl rfl
     rfl rfl rfl (by decide) (by decide)⟩

/-- Terminal-order fixture: the same state with an already-executed order. -/
def exStDone : ExecState :=
  ExecState.mk (MarketFundingState.mk 0 0 0 0 false) (UserMargin.mk 0 1 0)
    (Order.mk 0 1 .Buy .Limit false 9999 1000000 0 100 0 .Executed)
    (UserMarketPosition.mk 1 0 0 0 0 0 0)

/-- Witness for C9 at a concrete executed order. -/
theorem terminal_order_immutable_witness :
    exStDone.order.status = OrderStatus.Executed ∧
    execute_order exMarket false true exStDone 1000000 1000000 0 10 10 =
      (some .OrderNotOpen, exStDone) ∧
    cancel_order exMarket exStDone.margin exStDone.order =
      (some .OrderNotOpen, (exStDone.margin, exStDone.order)) ∧
    cancel_order_by_executor true exMarket exStDone.margin exStDone.order =
      (some .OrderNotOpen, (exStDone.margin, exStDone.order)) :=
  ⟨rfl,
   terminal_order_immutable exMarket exStDone 1000000 1000000 0 10 10 (by decide) rfl rfl
     (Or.inl rfl)⟩


/-- update_funding_index touches only the index and timestamp. -/
theorem update_funding_index_frame (fs fs' : MarketFundingState) (now : Int)
    (p : FundingParams) (oi_cap : Nat)
    (hok : update_funding_index fs now p oi_cap = .ok fs') :
    fs'.open_interest = fs.open_interest ∧ fs'.skew = fs.skew ∧ fs'.halted = fs.halted := by
  unfold update_funding_index at hok
  split at hok
  · exact absurd hok (by simp)
  split at hok
  · simp only [Except.ok.injEq] at hok; subst hok; exact ⟨rfl, rfl, rfl⟩
  cases h1 : chkSubI64 now fs.last_update_ts with
  | error e => simp [h1] at hok
  | ok elapsed =>
  simp only [h1] at hok
  cases h2 : funding_premium fs.skew oi_cap with
  | error e => simp [h2] at hok
  | ok premium_bps =>
  simp only [h2] at hok
  cases h3 : chkMulI128 p.funding_velocity_cap_bps_per_day elapsed with
  | error e => simp [h3] at hok
  | ok vnum =>
  simp only [h3] at hok
  cases h4 : chkDivI128 vnum 86400 with
  | error e => simp [h4] at hok
  | ok velocity_bound =>
  simp only [h4] at hok
  cases h5 : chkMulI128 (min (max premium_bps (-p.premium_clamp_bps)) p.premium_clamp_bps)
      FUNDING_SCALE with
  | error e => simp [h5] at hok
  | ok cs =>
  simp only [h5] at hok
  cases h6 : chkMulI128 cs elapsed with
  | error e => simp [h6] at hok
  | ok cse =>
  simp only [h6] at hok
  cases h7 : chkDivI128 cse p.interval_sec with
  | error e => simp [h7] at hok
  | ok interval_scaled =>
  simp only [h7] at hok
  cases h8 : chkMulI128 velocity_bound FUNDING_SCALE with
  | error e => simp [h8] at hok
  | ok max_scaled =>
  simp only [h8] at hok
  cases h9 : chkAddI128 fs.funding_index
      (min (max interval_scaled (-max_scaled)) max_scaled) with
  | error e => simp [h9] at hok
  | ok idx =>
  simp only [h9, Except.ok.injEq] at hok
  subst hok
  exact ⟨rfl, rfl, rfl⟩

/-- settle_user_funding touches only the last-settled indices of the
position (never the quantities or notionals). -/
theorem settle_user_funding_frame (pos pos1 : UserMarketPosition)
    (fs : MarketFundingState) (m m1 : UserMargin)
    (hok : settle_user_funding pos fs m = .ok (pos1, m1)) :
    pos1.market_id = pos.market_id ∧
    pos1.long_qty = pos.long_qty ∧ pos1.long_entry_notional = pos.long_entry_notional ∧
    pos1.short_qty = pos.short_qty ∧ pos1.short_entry_notional = pos.short_entry_notional ∧
    pos1.last_funding_index_long = fs.funding_index ∧
    pos1.last_funding_index_short = fs.funding_index ∧
    m1.next_order_nonce = m.next_order_nonce ∧ m1.total_notional = m.total_notional := by
  unfold settle_user_funding at hok
  cases h1 : chkSubI128 fs.funding_index pos.last_funding_index_long with
  | error e => simp [h1] at hok
  | ok delta_long =>
  simp only [h1] at hok
  cases h2 : chkSubI128 fs.funding_index pos.last_funding_index_short with
  | error e => simp [h2] at hok
  | ok delta_short =>
  simp only [h2] at hok
  cases h3 : chkMulI128 (pos.long_qty : Int) delta_long with
  | error e => simp [h3] at hok
  | ok lp =>
  simp only [h3] at hok
  cases h4 : chkDivI128 lp FUNDING_SCALE with
  | error e => simp [h4] at hok
  | ok long_payment =>
  simp only [h4] at hok
  cases h5 : chkMulI128 (pos.short_qty : Int) delta_short with
  | error e => simp [h5] at hok
  | ok sp =>
  simp only [h5] at hok
  cases h6 : chkDivI128 sp FUNDING_SCALE with
  | error e => simp [h6] at hok
  | ok short_payment =>
  simp only [h6] at hok
  cases h7 : chkSubI128 short_payment long_payment with
  | error e => simp [h7] at hok
  | ok net_delta =>
  simp only [h7] at hok
  split at hok
  · cases h8 : chkAddU64 m.collateral_balance (toU64 net_delta.toNat) with
    | error e => simp [h8] at hok
    | ok c =>
      simp only [h8, Except.ok.injEq, Prod.mk.injEq] at hok
      obtain ⟨hp, hm⟩ := hok
      subst hp hm
      exact ⟨rfl, rfl, rfl, rfl, rfl, rfl, rfl, rfl, rfl⟩
  · simp only [Except.ok.injEq, Prod.mk.injEq] at hok
    obtain ⟨hp, hm⟩ := hok
    subst hp hm
    exact ⟨rfl, rfl, rfl, rfl, rfl, rfl, rfl, rfl, rfl⟩

/-- C3: after the funding update and settlement, a liquidate call on an
account whose settled collateral still meets the maintenance margin
`mul_bps_u64 total_notional mmr_bps` fails with NotLiquidatable; the
position legs, open interest, skew and total notional are exactly as
before the call, and the collateral carries only the funding settlement
(no penalty debit). -/
theorem liquidate_not_liquidatable (market : Market) (pen_bps : Nat) (st : LiqState)
    (market_id : Nat) (leg : PositionLeg) (close_qty : Nat) (now : Int)
    (fs1 : MarketFundingState) (pos1 : UserMarketPosition) (m1 : UserMargin)
    (mmr_required : Nat)
    (hcq : close_qty ≠ 0)
    (hmid : market.market_id = market_id)
    (hpid : st.position.market_id = market_id)
    (hactive : market.status = .Active)
    (hhalt : st.funding_state.halted = false)
    (hupd : update_funding_index st.funding_state now market.funding_params
      market.risk_params.oi_cap = .ok fs1)
    (hsettle : settle_user_funding st.position fs1 st.margin = .ok (pos1, m1))
    (hmmr : mul_bps_u64 m1.total_notional market.risk_params.mmr_bps = .ok mmr_required)
    (hge : mmr_required ≤ m1.collateral_balance) :
    liquidate market true pen_bps st market_id leg close_qty now =
      (some .NotLiquidatable,
       { st with funding_state := fs1, position := pos1, margin := m1 }) ∧
    pos1.long_qty = st.position.long_qty ∧
    pos1.long_entry_notional = st.position.long_entry_notional ∧
    pos1.short_qty = st.position.short_qty ∧
    pos1.short_entry_notional = st.position.short_entry_notional ∧
    fs1.open_interest = st.funding_state.open_interest ∧
    fs1.skew = st.funding_state.skew ∧
    m1.total_notional = st.margin.total_notional := by
  have hf := update_funding_index_frame st.funding_state fs1 now market.funding_params
    market.risk_params.oi_cap hupd
  have hs := settle_user_funding_frame st.position pos1 fs1 st.margin m1 hsettle
  refine ⟨?_, hs.2.1, hs.2.2.1, hs.2.2.2.1, hs.2.2.2.2.1, hf.1, hf.2.1,
    hs.2.2.2.2.2.2.2.2⟩
  unfold liquidate
  rw [if_neg hcq, if_neg (by simp [hmid]), if_neg (by simp [hpid]),
    if_neg (by simp [hactive]), if_neg (by simp [hhalt]), if_neg (by simp)]
  simp only [hupd, hsettle, hmmr, if_pos hge]


/-- C2: when, on a liquidatable account, the realized bad debt
`penalty - settled_collateral` exceeds the entry insurance-vault balance
plus the insurance portion credited by this liquidation, liquidate sets
the market's local halted flag and returns the distinct halt error while
every mutation already applied — position reduction, funding settlement,
collateral zeroing, open-interest/skew reduction and the two penalty
vault transfers — remains in the resulting state, and the liquidity-pool
notification is skipped. -/
theorem liquidate_insurance_shortfall_halts (market : Market) (pen_bps : Nat)
    (st : LiqState) (market_id : Nat) (leg : PositionLeg) (close_qty : Nat) (now : Int)
    (fs1 : MarketFundingState) (pos1 pos2 : UserMarketPosition) (m1 : UserMargin)
    (mmr_required reduced penalty keeper_portion insurance_portion : Nat) (sk2 : Int)
    (hcq : close_qty ≠ 0)
    (hmid : market.market_id = market_id)
    (hpid : st.position.market_id = market_id)
    (hactive : market.status = .Active)
    (hhalt : st.funding_state.halted = false)
    (hupd : update_funding_index st.funding_state now market.funding_params
      market.risk_params.oi_cap = .ok fs1)
    (hsettle : settle_user_funding st.position fs1 st.margin = .ok (pos1, m1))
    (hmmr : mul_bps_u64 m1.total_notional market.risk_params.mmr_bps = .ok mmr_required)
    (hliq : m1.collateral_balance < mmr_required)
    (hrp : reduce_position pos1 leg close_qty = .ok (reduced, pos2))
    (hrz : reduced ≠ 0)
    (htn : reduced ≤ m1.total_notional)
    (hoi : reduced ≤ fs1.open_interest)
    (hsk : skew_after_reduce fs1.skew leg reduced = .ok sk2)
    (hpen : mul_bps_u64 reduced pen_bps = .ok penalty)
    (hkp : mul_bps_u64 penalty 1000 = .ok keeper_portion)
    (hins : chkSubU64 penalty keeper_portion = .ok insurance_portion)
    (hshort : m1.collateral_balance < penalty)
    (hcv1 : insurance_portion ≤ st.collateral_vault)
    (hiv : st.insurance_vault + insurance_portion ≤ U64_MAX)
    (hcv2 : keeper_portion ≤ st.collateral_vault - insurance_portion)
    (hpv : st.protocol_vault + keeper_portion ≤ U64_MAX)
    (hbad : st.insurance_vault + insurance_portion < penalty - m1.collateral_balance) :
    liquidate market true pen_bps st market_id leg close_qty now =
      (some .InsuranceShortfallMarketHalted,
       LiqState.mk
         { fs1 with open_interest := fs1.open_interest - reduced, skew := sk2,
                    halted := true }
         { m1 with total_notional := m1.total_notional - reduced,
                   collateral_balance := 0 }
         pos2
         (st.collateral_vault - insurance_portion - keeper_portion)
         (st.insurance_vault + insurance_portion)
         (st.protocol_vault + keeper_portion)
         st.pool_notified) := by
  have hsub1 : chkSubU64 m1.total_notional reduced = .ok (m1.total_notional - reduced) := by
    unfold chkSubU64; rw [if_pos htn]
  have hsub2 : chkSubU64 fs1.open_interest reduced = .ok (fs1.open_interest - reduced) := by
    unfold chkSubU64; rw [if_pos hoi]
  have ht1 := transfer_tokens_ok st.collateral_vault st.insurance_vault insurance_portion
    hcv1 hiv
  have ht2 := transfer_tokens_ok (st.collateral_vault - insurance_portion)
    st.protocol_vault keeper_portion hcv2 hpv
  have hadd : chkAddU64 st.insurance_vault insurance_portion =
      .ok (st.insurance_vault + insurance_portion) := by
    unfold chkAddU64; rw [if_pos hiv]
  unfold liquidate
  rw [if_neg hcq, if_neg (by simp [hmid]), if_neg (by simp [hpid]),
    if_neg (by simp [hactive]), if_neg (by simp [hhalt]), if_neg (by simp)]
  simp only [hupd, hsettle, hmmr, if_neg (by omega : ¬ mmr_required ≤ m1.collateral_balance),
    hrp, if_neg hrz, hsub1, hsub2, hsk, hpen, hkp, hins,
    if_neg (by omega : ¬ penalty ≤ m1.collateral_balance), ht1, ht2, hadd,
    if_pos hbad]


/-- Market fixture for the liquidation witnesses: mmr 5%, imr 10%. -/
def liqMarket : Market :=
  Market.mk 1 .Active (RiskParams.mk 10000 1000 500 1000000000000 1000000000000 1000000000000)
    (PricingParams.mk 0 0 5000 60 100) (FundingParams.mk 3600 0 0) (FeeParams.mk 0 0)

/-- Liquidation fixture: collateral wiped out, insurance vault at 50. -/
def liqStA : LiqState :=
  LiqState.mk (MarketFundingState.mk 0 0 10000 10000 false) (UserMargin.mk 0 0 10000)
    (UserMarketPosition.mk 1 10000 10000 0 0 0 0) 1000000 50 0 false

/-- Liquidation fixture: collateral 600 against an MMR of 500. -/
def liqStB : LiqState :=
  LiqState.mk (MarketFundingState.mk 0 0 10000 10000 false) (UserMargin.mk 600 0 10000)
    (UserMarketPosition.mk 1 10000 10000 0 0 0 0) 1000000 50 0 false

/-- Witness for C3 at a concrete account above maintenance margin. -/
theorem liquidate_not_liquidatable_witness :
    (500:Nat) ≤ 600 ∧
    (liquidate liqMarket true 2000 liqStB 1 .Long 5000 10 =
      (some .NotLiquidatable,
       LiqState.mk (MarketFundingState.mk 0 10 10000 10000 false) (UserMargin.mk 600 0 10000)
         (UserMarketPosition.mk 1 10000 10000 0 0 0 0) 1000000 50 0 false) ∧
     (10000:Nat) = 10000 ∧ (10000:Nat) = 10000 ∧ (0:Nat) = 0 ∧ (0:Nat) = 0 ∧
     (10000:Nat) = 10000 ∧ (10000:Int) = 10000 ∧ (10000:Nat) = 10000) :=
  ⟨by decide,
   liquidate_not_liquidatable liqMarket 2000 liqStB 1 .Long 5000 10
     (MarketFundingState.mk 0 10 10000 10000 false)
     (UserMarketPosition.mk 1 10000 10000 0 0 0 0) (UserMargin.mk 600 0 10000) 500
     (by decide) rfl rfl rfl rfl rfl rfl rfl (by decide)⟩


/-- Witness for C2: scenario with penalty 1000, zero collateral and an
insurance vault of 50, leaving bad debt 1000 over a post-credit balance
of 950. -/
theorem liquidate_insurance_shortfall_halts_witness :
    (50:Nat) + 900 < 1000 - 0 ∧ (0:Nat) < 500 ∧
    liquidate liqMarket true 2000 liqStA 1 .Long 5000 10 =
      (some .InsuranceShortfallMarketHalted,
       LiqState.mk (MarketFundingState.mk 0 10 5000 5000 true) (UserMargin.mk 0 0 5000)
         (UserMarketPosition.mk 1 5000 5000 0 0 0 0) 999000 950 100 false) :=
  ⟨by decide, by decide,
   liquidate_insurance_shortfall_halts liqMarket 2000 liqStA 1 .Long 5000 10
     (MarketFundingState.mk 0 10 10000 10000 false)
     (UserMarketPosition.mk 1 10000 10000 0 0 0 0)
     (UserMarketPosition.mk 1 5000 5000 0 0 0 0) (UserMargin.mk 0 0 10000)
     500 5000 1000 100 900 5000
     (by decide) rfl rfl rfl rfl rfl rfl rfl (by decide) rfl (by decide) (by decide)
     (by decide) rfl rfl rfl rfl (by decide) (by decide) (by decide) (by decide)
     (by decide) (by decide)⟩


/-- exec_open success: the order is executed and the post-fee collateral
meets the initial-margin bound while the new total notional meets the
max(collateral,1)-scaled saturating leverage bound. -/
theorem exec_open_ok (market : Market) (st3 : ExecState) (fs1 : MarketFundingState)
    (pos1 : UserMarketPosition) (m2 : UserMargin)
    (fill_price oracle_price notional order_qty : Nat) (s' : ExecState)
    (himr : market.risk_params.imr_bps ≤ BPS_DENOM)
    (hok : exec_open market st3 fs1 pos1 m2 fill_price oracle_price notional order_qty =
      (none, s')) :
    s'.order.status = .Executed ∧
    s'.margin.total_notional * market.risk_params.imr_bps / BPS_DENOM ≤
      s'.margin.collateral_balance ∧
    s'.margin.total_notional ≤
      satMulU64 (max s'.margin.collateral_balance 1) market.risk_params.max_leverage := by
  unfold exec_open at hok
  cases h1 : chkAddU64 fs1.open_interest notional with
  | error e => simp [h1] at hok
  | ok projected_oi =>
  simp only [h1] at hok
  by_cases hoi : market.risk_params.oi_cap < projected_oi
  · rw [if_pos hoi] at hok; simp at hok
  rw [if_neg hoi] at hok
  cases h2 : projected_skew_of fs1.skew st3.order.side notional with
  | error e => simp [h2] at hok
  | ok projected_skew =>
  simp only [h2] at hok
  by_cases hsk : market.risk_params.skew_cap < projected_skew.natAbs
  · rw [if_pos hsk] at hok; simp at hok
  rw [if_neg hsk] at hok
  cases h3 : validate_impact_price st3.order.side fill_price oracle_price projected_skew
      projected_oi market.pricing_params with
  | error e => simp [h3] at hok
  | ok u =>
  simp only [h3] at hok
  cases h4 : mul_bps_u64 notional market.fee_params.taker_fee_bps with
  | error e => simp [h4] at hok
  | ok fee =>
  simp only [h4] at hok
  by_cases hfee : m2.collateral_balance < fee
  · rw [if_pos hfee] at hok; simp at hok
  rw [if_neg hfee] at hok
  cases h5 : chkSubU64 m2.collateral_balance fee with
  | error e => simp [h5] at hok
  | ok c2 =>
  simp only [h5] at hok
  cases h6 : chkAddU64 m2.total_notional notional with
  | error e => simp [h6] at hok
  | ok new_total_notional =>
  simp only [h6] at hok
  cases h7 : mul_bps_u64 new_total_notional market.risk_params.imr_bps with
  | error e => simp [h7] at hok
  | ok imr_required =>
  simp only [h7] at hok
  by_cases himrc : c2 < imr_required
  · rw [if_pos himrc] at hok; simp at hok
  rw [if_neg himrc] at hok
  cases h8 : chkMulU64 new_total_notional 1 with
  | error e => simp [h8] at hok
  | ok leverage_num =>
  simp only [h8] at hok
  by_cases hlev : satMulU64 (max c2 1) market.risk_params.max_leverage < leverage_num
  · rw [if_pos hlev] at hok; simp at hok
  rw [if_neg hlev] at hok
  cases h9 : apply_fill_to_position pos1 st3.order.side order_qty notional with
  | error e => simp [h9] at hok
  | ok pos2 =>
  simp only [h9, Prod.mk.injEq] at hok
  obtain ⟨-, hs⟩ := hok
  subst hs
  obtain ⟨hnteq, hntle⟩ := chkAddU64_ok h6
  obtain ⟨hnumeq, -⟩ := chkMulU64_ok h8
  have heval := mul_bps_u64_eval new_total_notional market.risk_params.imr_bps
    (hnteq ▸ hntle) himr
  rw [heval] at h7
  simp only [Except.ok.injEq] at h7
  refine ⟨rfl, ?_, ?_⟩
  · simp only []
    rw [h7]
    exact not_lt.mp himrc
  · simp only []
    rw [Nat.mul_one] at hnumeq
    rw [hnumeq] at hlev
    exact not_lt.mp hlev

/-- exec_open failure: no part of the fill is applied — the position,
the order, the funding state and the total notional are exactly as at
entry to the stage. -/
theorem exec_open_err (market : Market) (st3 : ExecState) (fs1 : MarketFundingState)
    (pos1 : UserMarketPosition) (m2 : UserMargin)
    (fill_price oracle_price notional order_qty : Nat) (e : Err) (s' : ExecState)
    (hm : st3.margin = m2)
    (hok : exec_open market st3 fs1 pos1 m2 fill_price oracle_price notional order_qty =
      (some e, s')) :
    s'.position = st3.position ∧ s'.order = st3.order ∧
    s'.funding_state = st3.funding_state ∧
    s'.margin.total_notional = st3.margin.total_notional := by
  unfold exec_open at hok
  cases h1 : chkAddU64 fs1.open_interest notional with
  | error e0 =>
    simp only [h1, Prod.mk.injEq] at hok
    obtain ⟨-, hs⟩ := hok; subst hs; exact ⟨rfl, rfl, rfl, rfl⟩
  | ok projected_oi =>
  simp only [h1] at hok
  by_cases hoi : market.risk_params.oi_cap < projected_oi
  · rw [if_pos hoi] at hok
    simp only [Prod.mk.injEq] at hok
    obtain ⟨-, hs⟩ := hok; subst hs; exact ⟨rfl, rfl, rfl, rfl⟩
  rw [if_neg hoi] at hok
  cases h2 : projected_skew_of fs1.skew st3.order.side notional with
  | error e0 =>
    simp only [h2, Prod.mk.injEq] at hok
    obtain ⟨-, hs⟩ := hok; subst hs; exact ⟨rfl, rfl, rfl, rfl⟩
  | ok projected_skew =>
  simp only [h2] at hok
  by_cases hsk : market.risk_params.skew_cap < projected_skew.natAbs
  · rw [if_pos hsk] at hok
    simp only [Prod.mk.injEq] at hok
    obtain ⟨-, hs⟩ := hok; subst hs; exact ⟨rfl, rfl, rfl, rfl⟩
  rw [if_neg hsk] at hok
  cases h3 : validate_impact_price st3.order.side fill_price oracle_price projected_skew
      projected_oi market.pricing_params with
  | error e0 =>
    simp only [h3, Prod.mk.injEq] at hok
    obtain ⟨-, hs⟩ := hok; subst hs; exact ⟨rfl, rfl, rfl, rfl⟩
  | ok u =>
  simp only [h3] at hok
  cases h4 : mul_bps_u64 notional market.fee_params.taker_fee_bps with
  | error e0 =>
    simp only [h4, Prod.mk.injEq] at hok
    obtain ⟨-, hs⟩ := hok; subst hs; exact ⟨rfl, rfl, rfl, rfl⟩
  | ok fee =>
  simp only [h4] at hok
  by_cases hfee : m2.collateral_balance < fee
  · rw [if_pos hfee] at hok
    simp only [Prod.mk.injEq] at hok
    obtain ⟨-, hs⟩ := hok; subst hs; exact ⟨rfl, rfl, rfl, rfl⟩
  rw [if_neg hfee] at hok
  cases h5 : chkSubU64 m2.collateral_balance fee with
  | error e0 =>
    simp only [h5, Prod.mk.injEq] at hok
    obtain ⟨-, hs⟩ := hok; subst hs; exact ⟨rfl, rfl, rfl, rfl⟩
  | ok c2 =>
  simp only [h5] at hok
  cases h6 : chkAddU64 m2.total_notional notional with
  | error e0 =>
    simp only [h6, Prod.mk.injEq] at hok
    obtain ⟨-, hs⟩ := hok; subst hs
    exact ⟨rfl, rfl, rfl, by rw [hm]⟩
  | ok new_total_notional =>
  simp only [h6] at hok
  cases h7 : mul_bps_u64 new_total_notional market.risk_params.imr_bps with
  | error e0 =>
    simp only [h7, Prod.mk.injEq] at hok
    obtain ⟨-, hs⟩ := hok; subst hs
    exact ⟨rfl, rfl, rfl, by rw [hm]⟩
  | ok imr_required =>
  simp only [h7] at hok
  by_cases himrc : c2 < imr_required
  · rw [if_pos himrc] at hok
    simp only [Prod.mk.injEq] at hok
    obtain ⟨-, hs⟩ := hok; subst hs
    exact ⟨rfl, rfl, rfl, by rw [hm]⟩
  rw [if_neg himrc] at hok
  cases h8 : chkMulU64 new_total_notional 1 with
  | error e0 =>
    simp only [h8, Prod.mk.injEq] at hok
    obtain ⟨-, hs⟩ := hok; subst hs
    exact ⟨rfl, rfl, rfl, by rw [hm]⟩
  | ok leverage_num =>
  simp only [h8] at hok
  by_cases hlev : satMulU64 (max c2 1) market.risk_params.max_leverage < leverage_num
  · rw [if_pos hlev] at hok
    simp only [Prod.mk.injEq] at hok
    obtain ⟨-, hs⟩ := hok; subst hs
    exact ⟨rfl, rfl, rfl, by rw [hm]⟩
  rw [if_neg hlev] at hok
  cases h9 : apply_fill_to_position pos1 st3.order.side order_qty notional with
  | error e0 =>
    simp only [h9, Prod.mk.injEq] at hok
    obtain ⟨-, hs⟩ := hok; subst hs
    exact ⟨rfl, rfl, rfl, by rw [hm]⟩
  | ok pos2 =>
  simp only [h9, Prod.mk.injEq] at hok
  obtain ⟨h, -⟩ := hok
  exact absurd h (by simp)


/-- C6 (amended): a non-reduce-only execution that succeeds (gate checks
satisfied, within expiry) leaves the order Executed with
`mul_bps(new_total_notional, imr_bps) ≤ post-fee collateral` and
`new_total_notional ≤ saturating(max(post-fee collateral, 1) * max_leverage)`
— the leverage denominator is floored at one, not the raw collateral
balance; any failing execution applies no fill: the position legs, the
order, the open interest, the skew and the total notional are
unchanged. -/
theorem execute_margin_leverage_checks (market : Market) (st : ExecState)
    (fill_price op oc : Nat) (opt now : Int) (res : Option Err) (st' : ExecState)
    (himr : market.risk_params.imr_bps ≤ BPS_DENOM)
    (hro : st.order.reduce_only = false)
    (hnow : now ≤ st.order.expires_at)
    (hexec : execute_order market false true st fill_price op oc opt now = (res, st')) :
    (res = none →
      st'.order.status = .Executed ∧
      st'.margin.total_notional * market.risk_params.imr_bps / BPS_DENOM ≤
        st'.margin.collateral_balance ∧
      st'.margin.total_notional ≤
        satMulU64 (max st'.margin.collateral_balance 1) market.risk_params.max_leverage) ∧
    (res ≠ none →
      st'.position.long_qty = st.position.long_qty ∧
      st'.position.long_entry_notional = st.position.long_entry_notional ∧
      st'.position.short_qty = st.position.short_qty ∧
      st'.position.short_entry_notional = st.position.short_entry_notional ∧
      st'.order = st.order ∧
      st'.funding_state.open_interest = st.funding_state.open_interest ∧
      st'.funding_state.skew = st.funding_state.skew ∧
      st'.margin.total_notional = st.margin.total_notional) := by
  unfold execute_order at hexec
  by_cases hfp : fill_price = 0
  · rw [if_pos hfp] at hexec
    simp only [Prod.mk.injEq] at hexec
    obtain ⟨hres, hs⟩ := hexec; subst hs
    exact ⟨fun h => absurd (hres ▸ h) (by simp),
           fun _ => ⟨rfl, rfl, rfl, rfl, rfl, rfl, rfl, rfl⟩⟩
  rw [if_neg hfp, if_neg (by simp), if_neg (by simp)] at hexec
  by_cases hst : market.status ≠ MarketStatus.Active
  · rw [if_pos hst] at hexec
    simp only [Prod.mk.injEq] at hexec
    obtain ⟨hres, hs⟩ := hexec; subst hs
    exact ⟨fun h => absurd (hres ▸ h) (by simp),
           fun _ => ⟨rfl, rfl, rfl, rfl, rfl, rfl, rfl, rfl⟩⟩
  rw [if_neg hst] at hexec
  by_cases hh : st.funding_state.halted
  · rw [if_pos hh] at hexec
    simp only [Prod.mk.injEq] at hexec
    obtain ⟨hres, hs⟩ := hexec; subst hs
    exact ⟨fun h => absurd (hres ▸ h) (by simp),
           fun _ => ⟨rfl, rfl, rfl, rfl, rfl, rfl, rfl, rfl⟩⟩
  rw [if_neg hh] at hexec
  by_cases hso : st.order.status ≠ OrderStatus.Open
  · rw [if_pos hso] at hexec
    simp only [Prod.mk.injEq] at hexec
    obtain ⟨hres, hs⟩ := hexec; subst hs
    exact ⟨fun h => absurd (hres ▸ h) (by simp),
           fun _ => ⟨rfl, rfl, rfl, rfl, rfl, rfl, rfl, rfl⟩⟩
  rw [if_neg hso] at hexec
  by_cases hmm : st.order.market_id ≠ market.market_id
  · rw [if_pos hmm] at hexec
    simp only [Prod.mk.injEq] at hexec
    obtain ⟨hres, hs⟩ := hexec; subst hs
    exact ⟨fun h => absurd (hres ▸ h) (by simp),
           fun _ => ⟨rfl, rfl, rfl, rfl, rfl, rfl, rfl, rfl⟩⟩
  rw [if_neg hmm] at hexec
  cases hres0 : estimate_order_reservation st.order.reduce_only st.order.margin market with
  | error e =>
    simp only [hres0, Prod.mk.injEq] at hexec
    obtain ⟨hres, hs⟩ := hexec; subst hs
    exact ⟨fun h => absurd (hres ▸ h) (by simp),
           fun _ => ⟨rfl, rfl, rfl, rfl, rfl, rfl, rfl, rfl⟩⟩
  | ok reserved_collateral =>
  simp only [hres0] at hexec
  rw [if_neg (by omega : ¬ st.order.expires_at < now)] at hexec
  cases hc0 : chkAddU64 st.margin.collateral_balance reserved_collateral with
  | error e =>
    simp only [hc0, Prod.mk.injEq] at hexec
    obtain ⟨hres, hs⟩ := hexec; subst hs
    exact ⟨fun h => absurd (hres ▸ h) (by simp),
           fun _ => ⟨rfl, rfl, rfl, rfl, rfl, rfl, rfl, rfl⟩⟩
  | ok c0 =>
  simp only [hc0] at hexec
  cases horacle : read_oracle_price_update_fallback market now op oc opt with
  | error e =>
    simp only [horacle, Prod.mk.injEq] at hexec
    obtain ⟨hres, hs⟩ := hexec; subst hs
    exact ⟨fun h => absurd (hres ▸ h) (by simp),
           fun _ => ⟨rfl, rfl, rfl, rfl, rfl, rfl, rfl, rfl⟩⟩
  | ok trip =>
  obtain ⟨oracle_price, oracle_conf, oracle_publish_time⟩ := trip
  simp only [horacle] at hexec
  cases hvo : validate_oracle market now fill_price oracle_price oracle_conf
      oracle_publish_time with
  | error e =>
    simp only [hvo, Prod.mk.injEq] at hexec
    obtain ⟨hres, hs⟩ := hexec; subst hs
    exact ⟨fun h => absurd (hres ▸ h) (by simp),
           fun _ => ⟨rfl, rfl, rfl, rfl, rfl, rfl, rfl, rfl⟩⟩
  | ok u0 =>
  simp only [hvo] at hexec
  by_cases hn0 : st.order.margin = 0
  · rw [if_pos hn0] at hexec
    simp only [Prod.mk.injEq] at hexec
    obtain ⟨hres, hs⟩ := hexec; subst hs
    exact ⟨fun h => absurd (hres ▸ h) (by simp),
           fun _ => ⟨rfl, rfl, rfl, rfl, rfl, rfl, rfl, rfl⟩⟩
  rw [if_neg hn0] at hexec
  by_cases hmx : market.risk_params.max_trade_notional < st.order.margin
  · rw [if_pos hmx] at hexec
    simp only [Prod.mk.injEq] at hexec
    obtain ⟨hres, hs⟩ := hexec; subst hs
    exact ⟨fun h => absurd (hres ▸ h) (by simp),
           fun _ => ⟨rfl, rfl, rfl, rfl, rfl, rfl, rfl, rfl⟩⟩
  rw [if_neg hmx] at hexec
  cases hq0 : chkMulU128 st.order.margin PRICE_SCALE with
  | error e =>
    simp only [hq0, Prod.mk.injEq] at hexec
    obtain ⟨hres, hs⟩ := hexec; subst hs
    exact ⟨fun h => absurd (hres ▸ h) (by simp),
           fun _ => ⟨rfl, rfl, rfl, rfl, rfl, rfl, rfl, rfl⟩⟩
  | ok rq0 =>
  simp only [hq0] at hexec
  cases hq1 : chkDivU128 rq0 fill_price with
  | error e =>
    simp only [hq1, Prod.mk.injEq] at hexec
    obtain ⟨hres, hs⟩ := hexec; subst hs
    exact ⟨fun h => absurd (hres ▸ h) (by simp),
           fun _ => ⟨rfl, rfl, rfl, rfl, rfl, rfl, rfl, rfl⟩⟩
  | ok raw_qty =>
  simp only [hq1] at hexec
  by_cases hr1 : U64_MAX < raw_qty
  · rw [if_pos hr1] at hexec
    simp only [Prod.mk.injEq] at hexec
    obtain ⟨hres, hs⟩ := hexec; subst hs
    exact ⟨fun h => absurd (hres ▸ h) (by simp),
           fun _ => ⟨rfl, rfl, rfl, rfl, rfl, rfl, rfl, rfl⟩⟩
  rw [if_neg hr1] at hexec
  by_cases hr2 : raw_qty = 0
  · rw [if_pos hr2] at hexec
    simp only [Prod.mk.injEq] at hexec
    obtain ⟨hres, hs⟩ := hexec; subst hs
    exact ⟨fun h => absurd (hres ▸ h) (by simp),
           fun _ => ⟨rfl, rfl, rfl, rfl, rfl, rfl, rfl, rfl⟩⟩
  rw [if_neg hr2] at hexec
  cases hvp : validate_order_price st.order.side st.order.price fill_price with
  | error e =>
    simp only [hvp, Prod.mk.injEq] at hexec
    obtain ⟨hres, hs⟩ := hexec; subst hs
    exact ⟨fun h => absurd (hres ▸ h) (by simp),
           fun _ => ⟨rfl, rfl, rfl, rfl, rfl, rfl, rfl, rfl⟩⟩
  | ok u1 =>
  simp only [hvp] at hexec
  cases hupd : update_funding_index st.funding_state now market.funding_params
      market.risk_params.oi_cap with
  | error e =>
    simp only [hupd, Prod.mk.injEq] at hexec
    obtain ⟨hres, hs⟩ := hexec; subst hs
    exact ⟨fun h => absurd (hres ▸ h) (by simp),
           fun _ => ⟨rfl, rfl, rfl, rfl, rfl, rfl, rfl, rfl⟩⟩
  | ok fs1 =>
  simp only [hupd] at hexec
  have hffr := update_funding_index_frame st.funding_state fs1 now market.funding_params
    market.risk_params.oi_cap hupd
  cases hset : settle_user_funding st.position fs1
      { st.margin with collateral_balance := c0 } with
  | error e =>
    simp only [hset, Prod.mk.injEq] at hexec
    obtain ⟨hres, hs⟩ := hexec; subst hs
    exact ⟨fun h => absurd (hres ▸ h) (by simp),
           fun _ => ⟨rfl, rfl, rfl, rfl, rfl, hffr.1, hffr.2.1, rfl⟩⟩
  | ok pm =>
  obtain ⟨pos1, m2⟩ := pm
  simp only [hset] at hexec
  have hsfr := settle_user_funding_frame st.position pos1 fs1
    { st.margin with collateral_balance := c0 } m2 hset
  rw [hro] at hexec
  simp only [Bool.false_eq_true, if_neg] at hexec
  cases res with
  | some e =>
    have hfr := exec_open_err market _ fs1 pos1 m2 fill_price oracle_price
      st.order.margin raw_qty e st' rfl hexec
    refine ⟨fun h => absurd h (by simp), fun _ => ?_⟩
    refine ⟨?_, ?_, ?_, ?_, hfr.2.1, ?_, ?_, ?_⟩
    · rw [hfr.1]; exact hsfr.2.1
    · rw [hfr.1]; exact hsfr.2.2.1
    · rw [hfr.1]; exact hsfr.2.2.2.1
    · rw [hfr.1]; exact hsfr.2.2.2.2.1
    · rw [hfr.2.2.1]; exact hffr.1
    · rw [hfr.2.2.1]; exact hffr.2.1
    · rw [hfr.2.2.2]; exact hsfr.2.2.2.2.2.2.2.2
  | none =>
    have hbounds := exec_open_ok market _ fs1 pos1 m2 fill_price oracle_price
      st.order.margin raw_qty st' himr hexec
    exact ⟨fun _ => hbounds, fun h => absurd rfl h⟩


/-- Final state of the C6 counterexample run. -/
def exStFinal : ExecState :=
  ExecState.mk (MarketFundingState.mk 0 10 9999 9999 false) (UserMargin.mk 0 1 9999)
    (Order.mk 0 1 .Buy .Limit false 9999 1000000 0 100 0 .Executed)
    (UserMarketPosition.mk 1 9999 9999 0 0 0 0)

/-- C6 counterexample: a successful non-reduce-only execution whose
post-fee collateral is zero while the new total notional is 9 999, so
`new_total_notional ≤ collateral_balance * max_leverage` fails (the code
divides by `max(collateral, 1)`, not by the collateral itself). -/
theorem leverage_bound_violated_cex :
    exSt.order.reduce_only = false ∧
    execute_order exMarket false true exSt 1000000 1000000 0 10 10 = (none, exStFinal) ∧
    exStFinal.margin.collateral_balance * exMarket.risk_params.max_leverage <
      exStFinal.margin.total_notional := by
  refine ⟨rfl, by decide, by decide⟩

/-- Witness for C6 (amended) at the concrete successful run. -/
theorem execute_margin_leverage_checks_witness :
    exMarket.risk_params.imr_bps ≤ BPS_DENOM ∧ exSt.order.reduce_only = false ∧
    (((none : Option Err) = none →
      exStFinal.order.status = .Executed ∧
      exStFinal.margin.total_notional * exMarket.risk_params.imr_bps / BPS_DENOM ≤
        exStFinal.margin.collateral_balance ∧
      exStFinal.margin.total_notional ≤
        satMulU64 (max exStFinal.margin.collateral_balance 1)
          exMarket.risk_params.max_leverage) ∧
     ((none : Option Err) ≠ none →
      exStFinal.position.long_qty = exSt.position.long_qty ∧
      exStFinal.position.long_entry_notional = exSt.position.long_entry_notional ∧
      exStFinal.position.short_qty = exSt.position.short_qty ∧
      exStFinal.position.short_entry_notional = exSt.position.short_entry_notional ∧
      exStFinal.order = exSt.order ∧
      exStFinal.funding_state.open_interest = exSt.funding_state.open_interest ∧
      exStFinal.funding_state.skew = exSt.funding_state.skew ∧
      exStFinal.margin.total_notional = exSt.margin.total_notional)) :=
  ⟨by decide, rfl,
   execute_margin_leverage_checks exMarket exSt 1000000 1000000 0 10 10 none exStFinal
     (by decide) rfl (by decide) (by decide)⟩


end Easyclaw
